import Mathlib

/-!
# grubfm: file-action menu construction and the text pager

A shallow embedding of `grub-core/grubfm/open.c` and `grub-core/grubfm/text.c`.

Conventions of the embedding.

* C strings are `String`; a `char *` that may be `NULL` is `Option String`.
* Everything `open.c` reads or writes outside its own locals is carried in an
  explicit `World`: the environment variable store, the entries handed to the
  menu surface, the outcomes of the coming `grub_xasprintf` allocations and the
  scripts handed to the script evaluator.
* Collaborators that live in other files of GRUB (`ini_get`, the classifier,
  `grub_file_open`, the script evaluator, `gettext`) are fields of `Sys`; every
  theorem holds for every choice of them.
* `grub_strdup` is taken to succeed: the source dereferences its result
  unchecked. A path without `/` makes `grub_strrchr` return `NULL`, which the
  source writes through; that is undefined behaviour and is `none` here.
-/

namespace Grubfm

/-! ## Data model -/

/-- Menu entry as handed to `grubfm_add_menu (title, icon, hotkey, src, hidden)`. -/
structure MenuEntry where
  title : String
  icon : String
  hotkey : Option String
  src : Option String
  hidden : Nat
deriving DecidableEq, Repr

/-- Environment variable store of GRUB (`grub_env_get` / `grub_env_set`). -/
abbrev Env := List (String × String)

/-- Handle of a parsed configuration: the value `ini_get` returns for a section and a
key, `none` standing for `NULL`. -/
abbrev ini_t := String → String → Option String

/-- Lookup `ini_get (ini, section, key)` of the ini library. -/
def ini_get (ini : ini_t) (sect key : String) : Option String := ini sect key

/-- Fields of `grub_file_t` that the two source files read or write. -/
structure grub_file where
  name : String
  size : Nat
  offset : Nat
deriving DecidableEq, Repr

/-- Build target, selecting the branch of the `#ifdef GRUB_MACHINE_EFI` chain. -/
inductive Machine where
  | efi
  | pcbios
  | other
deriving DecidableEq, Repr

/-- Mutable state around `open.c`. -/
structure World where
  /-- environment variables -/
  env : Env
  /-- entries handed to the menu surface so far, oldest first -/
  menu : List MenuEntry
  /-- outcome of each coming `grub_xasprintf` call (`false`: returns `NULL`);
  once the list is used up every call succeeds -/
  allocs : List Bool
  /-- source text of every script handed to `grub_script_execute_sourcecode` -/
  scripts : List String
deriving DecidableEq, Repr

/-- Globals and collaborators declared in `fm.h` and in GRUB core. -/
structure Sys where
  /-- build target -/
  machine : Machine
  /-- global `grubfm_root` -/
  grubfm_root : String
  /-- global `grubfm_boot` -/
  grubfm_boot : Int
  /-- global `grubfm_ini_config` -/
  grubfm_ini_config : ini_t
  /-- array `grubfm_ext_table.config` -/
  ext_config : Nat → ini_t
  /-- translation `_(...)` -/
  gettext : String → String
  /-- effect of the script evaluator on the environment -/
  exec : String → Env → Env
  /-- `grub_file_open`, `none` when no handle is returned -/
  grub_file_open : String → Option grub_file
  /-- `grub_get_human_size (size, GRUB_HUMAN_SIZE_SHORT)` -/
  grub_get_human_size : Nat → String
  /-- `grubfm_get_file_icon`: the `ext` it stores for a name and a size string -/
  grubfm_get_file_icon : String → String → Int

/-! ## `open.c` -/

/-- Platform tag chosen by the preprocessor in `grubfm_add_ini_menu`. -/
def platform : Machine → Char
  | .efi => 'e'
  | .pcbios => 'b'
  | .other => 'u'

/-- Lookup `grub_env_get`. -/
def grub_env_get (env : Env) (name : String) : Option String := env.lookup name

/-- Allocation and formatting `grub_xasprintf`, given the formatted text: `NULL`
when the allocation fails. -/
def grub_xasprintf (text : String) (w : World) : Option String × World :=
  match w.allocs with
  | [] => (some text, w)
  | ok :: rest => (if ok then some text else none, { w with allocs := rest })

/-- Modelled from the spec: `grub_script_execute_sourcecode` (GRUB core, not in the
sources at hand) executes a script fragment against the shared environment. The text
is recorded in `scripts`. -/
def grub_script_execute_sourcecode (S : Sys) (src : String) (w : World) : World :=
  { w with env := S.exec src w.env, scripts := w.scripts ++ [src] }

/-- Modelled from the spec: `grubfm_add_menu` (declared in `fm.h`, not in the sources
at hand) hands one entry to the menu surface, after those already there. -/
def grubfm_add_menu (title icon : String) (hotkey src : Option String) (hidden : Nat)
    (w : World) : World :=
  { w with menu := w.menu ++ [⟨title, icon, hotkey, src, hidden⟩] }

/-- Index of the last occurrence of `c`, as `grub_strrchr` finds it; `none` is `NULL`. -/
def grub_strrchr : List Char → Char → Option Nat
  | [], _ => none
  | x :: xs, c =>
    match grub_strrchr xs c with
    | some i => some (i + 1)
    | none => if x = c then some 0 else none

/-- First character `s[0]` of a C string: the terminating NUL when `s` is empty. -/
def c_str_head (s : String) : Char := s.toList.headD (Char.ofNat 0)

/-- Function `grubfm_add_menu_back`; `none` when `grub_strrchr` finds no `/`. -/
def grubfm_add_menu_back (S : Sys) (filename : String) (w : World) : Option World :=
  match grub_strrchr filename.toList '/' with
  | none => none
  | some i =>
    let dir := String.mk (filename.toList.take i)
    let (src, w1) := grub_xasprintf ("grubfm \"" ++ dir ++ "/\"") w
    some (grubfm_add_menu (S.gettext "Back") "go-previous" none src 0 w1)

/-- Function `grubfm_ini_menu_check`. -/
def grubfm_ini_menu_check (S : Sys) (condition : String) (w : World) : Int × World :=
  match grub_xasprintf ("unset grubfm_test\nsource (" ++ S.grubfm_root
      ++ ")/boot/grub/rules/" ++ condition ++ "\n") w with
  | (none, w1) => (0, w1)
  | (some src, w1) =>
    let w2 := grub_script_execute_sourcecode S src w1
    match grub_env_get w2.env "grubfm_test" with
    | none => (0, w2)
    | some value => if value = "0" then (0, w2) else (1, w2)

/-- Test `enable && enable[0] != 'a' && enable[0] != platform`. -/
def enable_skips (S : Sys) (enable : Option String) : Bool :=
  match enable with
  | none => false
  | some e => c_str_head e != 'a' && c_str_head e != platform S.machine

/-- One pass through the body of the `for` loop of `grubfm_add_ini_menu` with loop
counter `i`: `none` is `break`, `some w` is the state at the end of the pass (also
after `continue`). -/
def ini_menu_body (S : Sys) (ini : ini_t) (i : Nat) (w : World) : Option World :=
  let num := toString i
  match ini_get ini num "menu" with
  | none => none
  | some script =>
    if enable_skips S (ini_get ini num "enable") then some w
    else
      let (pass, w1) : Int × World :=
        match ini_get ini num "condition" with
        | none => (1, w)
        | some condition => grubfm_ini_menu_check S condition w
      if pass = 0 then some w1
      else
        let icon := (ini_get ini num "icon").getD "file"
        let title := (ini_get ini num "title").getD "MENU"
        let hotkey := ini_get ini num "hotkey"
        let (src, w2) := grub_xasprintf ("configfile (" ++ S.grubfm_root
          ++ ")/boot/grub/rules/" ++ script ++ "\n") w1
        let hidden := if (ini_get ini num "hidden").isSome then 1 else 0
        some (grubfm_add_menu (S.gettext title) icon hotkey src hidden w2)

/-- Loop `for (i = ...; i < 100; i++)` with `n` passes left before the bound. -/
def ini_menu_loop (S : Sys) (ini : ini_t) : Nat → Nat → World → World
  | 0, _, w => w
  | n + 1, i, w =>
    match ini_menu_body S ini i w with
    | none => w
    | some w1 => ini_menu_loop S ini n (i + 1) w1

/-- Function `grubfm_add_ini_menu`. -/
def grubfm_add_ini_menu (S : Sys) (ini : ini_t) (w : World) : World :=
  ini_menu_loop S ini 100 0 w

/-- Block `if (grubfm_boot && info.ext >= 0) { ... }` of `grubfm_open_file`. -/
def open_file_boot (S : Sys) (ext : Int) (w : World) : World :=
  if S.grubfm_boot ≠ 0 ∧ ext ≥ 0 then
    match ini_get (S.ext_config ext.toNat) "type" "boot" with
    | none => w
    | some boot_script =>
      match grub_xasprintf ("source (" ++ S.grubfm_root ++ ")/boot/grub/rules/"
          ++ boot_script ++ "\n") w with
      | (none, w1) => w1
      | (some src, w1) => grub_script_execute_sourcecode S src w1
  else w

/-- Statement `if (info.ext >= 0) grubfm_add_ini_menu (ctx->config[info.ext]);`. -/
def open_file_type_menu (S : Sys) (ext : Int) (w : World) : World :=
  if ext ≥ 0 then grubfm_add_ini_menu S (S.ext_config ext.toNat) w else w

/-- Value of `info.ext` after `grubfm_get_file_icon (&info)` for an opened file. -/
def file_ext (S : Sys) (file : grub_file) : Int :=
  S.grubfm_get_file_icon file.name (S.grub_get_human_size file.size)

/-- Function `grubfm_open_file`; `none` when the path has no `/`. -/
def grubfm_open_file (S : Sys) (path : String) (w : World) : Option World :=
  match grubfm_add_menu_back S path w with
  | none => none
  | some w0 =>
    match S.grub_file_open path with
    | none => some w0
    | some file =>
      let ext := file_ext S file
      let w1 := open_file_boot S ext w0
      let w2 := open_file_type_menu S ext w1
      some (grubfm_add_ini_menu S S.grubfm_ini_config w2)

/-! ## `text.c` -/

/-- Macro `SIZE_1MB`. -/
def SIZE_1MB : Nat := 1048576

/-- Macro `CAT_LINE_NUM`. -/
def CAT_LINE_NUM : Nat := 36

/-- Constants and collaborators of `text.c` declared in `fm.h` and in GRUB core. -/
structure TextSys where
  /-- width in bits of `grub_size_t` -/
  size_bits : Nat
  /-- macro `FONT_SPACE` -/
  FONT_SPACE : Nat
  /-- key code `GRUB_TERM_ESC` -/
  GRUB_TERM_ESC : Int
  /-- key code `GRUB_TERM_KEY_UP` -/
  GRUB_TERM_KEY_UP : Int
  /-- key code `GRUB_TERM_KEY_DOWN` -/
  GRUB_TERM_KEY_DOWN : Int
  /-- width and height stored by `grubfm_get_screen_info` -/
  screen_info : Nat × Nat
  /-- `grub_file_open (filename, GRUB_FILE_TYPE_CAT)`, `none` when no handle is returned -/
  grub_file_open : String → Option grub_file
  /-- `grub_file_getline`: the line returned (`none` for `NULL`) and the read offset
  afterwards, for a handle with its current offset -/
  grub_file_getline : grub_file → Option String × Nat
  /-- `grub_get_human_size (size, GRUB_HUMAN_SIZE_SHORT)` -/
  grub_get_human_size : Nat → String
  /-- translation `_(...)` -/
  gettext : String → String

/-- Call on the drawing surface; every text is drawn in white. -/
inductive Draw where
  /-- call `grubfm_gfx_clear ()` -/
  | clear
  /-- call `grubfm_gfx_printf (white, x, y, ...)` with the formatted text -/
  | printf (x y : Nat) (text : String)
deriving DecidableEq, Repr

/-- Function `grubfm_textcat_eof` on an open handle (the callers never pass `NULL`:
`grubfm_textcat` returns when the open fails). -/
def grubfm_textcat_eof (file : grub_file) : Bool := decide (file.offset ≥ file.size)

/-- Value printed by `%lld` for an `unsigned long long` argument. -/
def lld (v : Nat) : Int :=
  if v % 2 ^ 64 < 2 ^ 63 then (v % 2 ^ 64 : Nat) else ((v % 2 ^ 64 : Nat) : Int) - 2 ^ 64

/-- Conversion `%20lld`: the decimal text padded with blanks on the left to width 20. -/
def pad20 (v : Nat) : String :=
  String.mk (List.replicate (20 - (toString (lld v)).length) ' ') ++ toString (lld v)

/-- Text of the end marker. -/
def end_marker : String := "                    --- END ---"

/-- First loop of `grubfm_textcat_page`, `n` passes left: the handle afterwards, and
whether the loop met the end of the file (and the function returned). -/
def page_skip (T : TextSys) : Nat → grub_file → grub_file × Bool
  | 0, file => (file, false)
  | n + 1, file =>
    if grubfm_textcat_eof file then (file, true)
    else page_skip T n { file with offset := (T.grub_file_getline file).2 }

/-- Second loop of `grubfm_textcat_page`, at counter `i` with `n` passes left: the
handle afterwards and the rows drawn. -/
def page_rows (T : TextSys) (from_line y : Nat) : Nat → Nat → grub_file → grub_file × List Draw
  | 0, _, file => (file, [])
  | n + 1, i, file =>
    if grubfm_textcat_eof file then (file, [Draw.printf 0 (y + T.FONT_SPACE * i) end_marker])
    else
      let row :=
        match (T.grub_file_getline file).1 with
        | none =>
          Draw.printf 0 (y + T.FONT_SPACE * i)
            (pad20 ((i + from_line + 1) % 2 ^ T.size_bits) ++ " (null)")
        | some line =>
          Draw.printf 0 (y + T.FONT_SPACE * i)
            (pad20 ((i + from_line + 1) % 2 ^ T.size_bits) ++ " " ++ line)
      let rest := page_rows T from_line y n (i + 1)
        { file with offset := (T.grub_file_getline file).2 }
      (rest.1, row :: rest.2)

/-- Function `grubfm_textcat_page` on an open handle. -/
def grubfm_textcat_page (T : TextSys) (file : grub_file) (from_line count y : Nat) :
    grub_file × List Draw :=
  match page_skip T from_line { file with offset := 0 } with
  | (file1, true) => (file1, [Draw.printf 0 y end_marker])
  | (file1, false) => page_rows T from_line y count 0 file1

/-- State of the `while (1)` loop of `grubfm_textcat`. -/
structure Pager where
  /-- the open handle -/
  file : grub_file
  /-- top-line offset -/
  line_num : Nat
  /-- key presses `grub_getkey` has not returned yet -/
  keys : List Int
  /-- drawing calls made so far -/
  screen : List Draw
deriving DecidableEq, Repr

/-- How one pass of the `while (1)` loop ends. -/
inductive Pass where
  /-- the pass reached `continue` -/
  | next (p : Pager)
  /-- the pass reached `break` -/
  | exit (p : Pager)
  /-- `grub_getkey` waits for a key that never comes -/
  | blocked (p : Pager)
deriving DecidableEq, Repr

/-- Inner loop `while (key != ESC && key != UP && key != DOWN) key = grub_getkey ();`
started with `key`: the key it ends with and the keys left, `none` when it waits for
ever. -/
def wait_key (T : TextSys) : Int → List Int → Option (Int × List Int)
  | key, [] =>
    if key ≠ T.GRUB_TERM_ESC ∧ key ≠ T.GRUB_TERM_KEY_UP ∧ key ≠ T.GRUB_TERM_KEY_DOWN then none
    else some (key, [])
  | key, k :: ks =>
    if key ≠ T.GRUB_TERM_ESC ∧ key ≠ T.GRUB_TERM_KEY_UP ∧ key ≠ T.GRUB_TERM_KEY_DOWN then
      wait_key T k ks
    else some (key, k :: ks)

/-- Chain of `if (key == ...)` after the inner loop: `none` is `break`, `some n` the value
of `line_num` at the next pass. The arithmetic is that of `grub_size_t`. -/
def textcat_key (T : TextSys) (file : grub_file) (key : Int) (line_num : Nat) : Option Nat :=
  if key = T.GRUB_TERM_ESC then none
  else if key = T.GRUB_TERM_KEY_DOWN then
    if ¬ grubfm_textcat_eof file then some ((line_num + CAT_LINE_NUM) % 2 ^ T.size_bits)
    else some line_num
  else if key = T.GRUB_TERM_KEY_UP then
    if line_num < CAT_LINE_NUM then some 0
    else some ((line_num + 2 ^ T.size_bits - CAT_LINE_NUM) % 2 ^ T.size_bits)
  else some line_num

/-- Text of the header line. -/
def header_text (T : TextSys) (filename : String) (file : grub_file) : String :=
  "FILE: " ++ filename ++ " (" ++ T.grub_get_human_size file.size ++ ") ENCODING: " ++ "UTF-8"

/-- Text of the footer line. -/
def footer_text : String := "↑ Page Up  ↓ Page Down  [ESC] Exit"

/-- One pass of the `while (1)` loop of `grubfm_textcat` on a screen of height `h`. -/
def textcat_pass (T : TextSys) (filename : String) (h : Nat) (p : Pager) : Pass :=
  let page := grubfm_textcat_page T p.file p.line_num CAT_LINE_NUM (2 * T.FONT_SPACE)
  let screen := p.screen
    ++ [Draw.clear, Draw.printf 0 T.FONT_SPACE (header_text T filename p.file)]
    ++ page.2 ++ [Draw.printf 0 (h - 4) footer_text]
  match wait_key T 0 p.keys with
  | none => Pass.blocked ⟨page.1, p.line_num, [], screen⟩
  | some (key, ks) =>
    match textcat_key T page.1 key p.line_num with
    | none => Pass.exit ⟨page.1, p.line_num, ks, screen⟩
    | some line_num => Pass.next ⟨page.1, line_num, ks, screen⟩

/-- How a run of `grubfm_textcat` stands. -/
inductive Status where
  /-- returned without opening a file -/
  | declined
  /-- returned from the large-file prompt; the handle is left open -/
  | aborted
  /-- left the loop and closed the file -/
  | closed
  /-- waiting in `grub_getkey` -/
  | waiting
  /-- still in the loop when the passes allowed were used up -/
  | running
deriving DecidableEq, Repr

/-- What a run of `grubfm_textcat` has done. -/
structure TextRun where
  /-- how the run stands -/
  status : Status
  /-- drawing calls, oldest first -/
  screen : List Draw
  /-- calls of `grub_printf`: the translated format and its `%s` argument -/
  console : List (String × String)
  /-- key presses not read -/
  keys : List Int
  /-- value of `line_num` -/
  line_num : Nat
deriving DecidableEq, Repr

/-- Loop `while (1)` of `grubfm_textcat` followed by `grub_file_close`, for at most
`fuel` passes. -/
def textcat_loop (T : TextSys) (filename : String) (h : Nat)
    (console : List (String × String)) :
    Nat → Pager → TextRun
  | 0, p => ⟨Status.running, p.screen, console, p.keys, p.line_num⟩
  | fuel + 1, p =>
    match textcat_pass T filename h p with
    | Pass.next p1 => textcat_loop T filename h console fuel p1
    | Pass.exit p1 => ⟨Status.closed, p1.screen, console, p1.keys, p1.line_num⟩
    | Pass.blocked p1 => ⟨Status.waiting, p1.screen, console, p1.keys, p1.line_num⟩

/-- Format of the large-file prompt. -/
def prompt_format : String :=
  "Are you sure to open large text file %s?\nPress [Y] to continue.\n"

/-- Function `grubfm_textcat` fed with the key presses `keys`, its loop running for at
most `fuel` passes. -/
def grubfm_textcat (T : TextSys) (filename : String) (keys : List Int) (fuel : Nat) : TextRun :=
  if T.screen_info.1 < 1024 ∨ T.screen_info.2 < 768 then ⟨Status.declined, [], [], keys, 0⟩
  else
    match T.grub_file_open filename with
    | none => ⟨Status.declined, [], [], keys, 0⟩
    | some file =>
      if file.size > SIZE_1MB then
        match keys with
        | [] => ⟨Status.waiting, [], [(T.gettext prompt_format, file.name)], [], 0⟩
        | key :: ks =>
          if key ≠ 121 then
            ⟨Status.aborted, [], [(T.gettext prompt_format, file.name)], ks, 0⟩
          else
            textcat_loop T filename T.screen_info.2 [(T.gettext prompt_format, file.name)] fuel
              ⟨file, 0, ks, []⟩
      else textcat_loop T filename T.screen_info.2 [] fuel ⟨file, 0, keys, []⟩

/-- Pager state at the head of the loop after `n` passes, each ended by `continue`,
from state `p`; `none` when the loop has ended or waits for a key before that. -/
def loop_head (T : TextSys) (filename : String) (h : Nat) : Nat → Pager → Option Pager
  | 0, p => some p
  | n + 1, p =>
    match textcat_pass T filename h p with
    | Pass.next p1 => loop_head T filename h n p1
    | _ => none

/-- After skipping `n` lines from the start of the file with the first loop of
`grubfm_textcat_page`, at least one byte of the file remains. -/
def bytes_remain_after (T : TextSys) (file : grub_file) (n : Nat) : Prop :=
  (page_skip T n { file with offset := 0 }).1.offset < file.size

instance bytes_remain_after_decidable (T : TextSys) (file : grub_file) (n : Nat) :
    Decidable (bytes_remain_after T file n) := by
  unfold bytes_remain_after
  infer_instance

/-- Invariant of the pager loop for the file `file`: the handle is still that of
`file`, `line_num` fits `grub_size_t`, and `line_num` is 0 or leaves a byte to show. -/
def pager_inv (T : TextSys) (file : grub_file) (p : Pager) : Prop :=
  p.file.name = file.name ∧ p.file.size = file.size ∧ p.line_num < 2 ^ T.size_bits ∧
  (p.line_num = 0 ∨ bytes_remain_after T file p.line_num)

/-! ## Vocabulary of the statements -/

/-- Entries a state transformer hands to the menu surface when run from `w`: those
after the entries `w` already holds. -/
def emitted_by (f : World → World) (w : World) : List MenuEntry :=
  (f w).menu.drop w.menu.length

/-- Text of the script `grubfm_ini_menu_check` builds for a condition name. -/
def check_script (S : Sys) (condition : String) : String :=
  "unset grubfm_test\nsource (" ++ S.grubfm_root ++ ")/boot/grub/rules/" ++ condition ++ "\n"

/-- Text of the `configfile` command for a `menu` value. -/
def configfile_cmd (S : Sys) (script : String) : String :=
  "configfile (" ++ S.grubfm_root ++ ")/boot/grub/rules/" ++ script ++ "\n"

/-- Entry `e` is the one a pass of the loop builds from section `i` of `ini`: the
section has a `menu` field, title, icon, hotkey and hidden flag are resolved with the
defaults, and the command is the `configfile` line (or `NULL` when its allocation
failed). -/
def section_entry (S : Sys) (ini : ini_t) (i : Nat) (e : MenuEntry) : Prop :=
  ∃ script, ini_get ini (toString i) "menu" = some script ∧
    e.title = S.gettext ((ini_get ini (toString i) "title").getD "MENU") ∧
    e.icon = (ini_get ini (toString i) "icon").getD "file" ∧
    e.hotkey = ini_get ini (toString i) "hotkey" ∧
    e.hidden = (if (ini_get ini (toString i) "hidden").isSome then 1 else 0) ∧
    (e.src = none ∨ e.src = some (configfile_cmd S script))

/-- Entries `es` come, one each and in this order, from sections of `ini` with
strictly ascending numbers, all in `[lo, hi)` and each preceded from `lo` on only by
sections that have a `menu` field. -/
def ascending_sections (S : Sys) (ini : ini_t) (lo hi : Nat) (es : List MenuEntry) : Prop :=
  ∃ secs : List Nat, secs.Sorted (· < ·) ∧
    (∀ s ∈ secs, lo ≤ s ∧ s < hi ∧
      ∀ j, lo ≤ j → j ≤ s → ini_get ini (toString j) "menu" ≠ none) ∧
    List.Forall₂ (section_entry S ini) secs es

/-- Entry `e` is the Back entry for `path`: fixed title and icon, no hotkey, visible,
and a command that is `NULL` or `grubfm "<dir>/"` with `<dir>` the text of `path`
before its last `/`. -/
def is_back_entry (S : Sys) (path : String) (e : MenuEntry) : Prop :=
  e.title = S.gettext "Back" ∧ e.icon = "go-previous" ∧ e.hotkey = none ∧ e.hidden = 0 ∧
  ∃ dir base : List Char, path.toList = dir ++ '/' :: base ∧ '/' ∉ base ∧
    (e.src = none ∨ e.src = some ("grubfm \"" ++ String.mk dir ++ "/\""))

/-- Type-specific group of `grubfm_open_file`: the entries `grubfm_add_ini_menu`
produces for the configuration of the classified extension, run in the state the
resolver has reached after the Back entry (`w0`) and the auto-boot block; empty when
`info.ext < 0`. -/
def type_group (S : Sys) (file : grub_file) (w0 : World) : List MenuEntry :=
  if file_ext S file ≥ 0 then
    emitted_by (grubfm_add_ini_menu S (S.ext_config (file_ext S file).toNat))
      (open_file_boot S (file_ext S file) w0)
  else []

/-- Global group of `grubfm_open_file`: the entries `grubfm_add_ini_menu` produces for
`grubfm_ini_config`, run in the state reached after the type-specific group. -/
def global_group (S : Sys) (file : grub_file) (w0 : World) : List MenuEntry :=
  emitted_by (grubfm_add_ini_menu S S.grubfm_ini_config)
    (open_file_type_menu S (file_ext S file) (open_file_boot S (file_ext S file) w0))

/-- Text `dir` is `path` truncated at its last `/`: what stands before the last `/`. -/
def truncated_at_last_slash (path dir : String) : Prop :=
  ∃ base : List Char, path.toList = dir.toList ++ '/' :: base ∧ '/' ∉ base

/-- Command of entry `e` is `grubfm "<dir>"`, with `<dir>` the path truncated at its
last `/`. -/
def back_names_parent (path : String) (e : MenuEntry) : Prop :=
  ∃ dir : String, truncated_at_last_slash path dir ∧ e.src = some ("grubfm \"" ++ dir ++ "\"")

/-- Command of entry `e` is `grubfm "<dir>/"`, with `<dir>` the path truncated at its
last `/`. -/
def back_names_parent_slash (path : String) (e : MenuEntry) : Prop :=
  ∃ dir : String, truncated_at_last_slash path dir ∧
    e.src = some ("grubfm \"" ++ dir ++ "/\"")

/-- Text of the auto-boot `source` command for a `boot` value. -/
def source_cmd (S : Sys) (boot_script : String) : String :=
  "source (" ++ S.grubfm_root ++ ")/boot/grub/rules/" ++ boot_script ++ "\n"

/-- Quoting convention `cmd "arg"`: a command word, one space, then the argument
enclosed in double quotes. -/
def quoted_convention (s : String) : Prop :=
  ∃ cmd arg : String, cmd ≠ "" ∧ ' ' ∉ cmd.toList ∧ s = cmd ++ " \"" ++ arg ++ "\""

/-- The loop of `grubfm_add_ini_menu` reaches section `i`: `i` is below the bound of
100 and every section below `i` has a `menu` field. -/
def reaches (ini : ini_t) (i : Nat) : Prop :=
  i < 100 ∧ ∀ j, j < i → ini_get ini (toString j) "menu" ≠ none

instance reaches_decidable (ini : ini_t) (i : Nat) : Decidable (reaches ini i) := by
  unfold reaches
  infer_instance

/-- State in which `grubfm_add_ini_menu`, started in `w`, begins the pass for section
`i` (meaningful when the loop reaches section `i`): the first `i` passes have run. -/
def state_at (S : Sys) (ini : ini_t) (i : Nat) (w : World) : World :=
  ini_menu_loop S ini i 0 w

/-- Run of `grubfm_add_ini_menu` from `w` in which the entry of section `i` is emitted:
the pass for section `i` hands exactly one entry, built from section `i`, to the menu
and the loop goes on with section `i + 1`; the final menu is the old menu, entries of
lower sections, that entry, entries of higher sections. -/
def section_emitted (S : Sys) (ini : ini_t) (i : Nat) (w : World) : Prop :=
  ∃ e w1 earlier later,
    ini_menu_body S ini i (state_at S ini i w) = some w1 ∧
    w1.menu = (state_at S ini i w).menu ++ [e] ∧ section_entry S ini i e ∧
    grubfm_add_ini_menu S ini w = ini_menu_loop S ini (99 - i) (i + 1) w1 ∧
    (grubfm_add_ini_menu S ini w).menu = w.menu ++ earlier ++ e :: later ∧
    ascending_sections S ini 0 i earlier ∧ ascending_sections S ini (i + 1) 100 later

/-- Run of `grubfm_add_ini_menu` from `w` in which section `i` is passed over: the pass
for section `i` hands nothing to the menu and does not end the loop, which goes on with
section `i + 1`; the final menu is the old menu, entries of lower sections, entries of
higher sections. -/
def section_skipped (S : Sys) (ini : ini_t) (i : Nat) (w : World) : Prop :=
  ∃ w1 earlier later,
    ini_menu_body S ini i (state_at S ini i w) = some w1 ∧
    w1.menu = (state_at S ini i w).menu ∧
    grubfm_add_ini_menu S ini w = ini_menu_loop S ini (99 - i) (i + 1) w1 ∧
    (grubfm_add_ini_menu S ini w).menu = w.menu ++ earlier ++ later ∧
    ascending_sections S ini 0 i earlier ∧ ascending_sections S ini (i + 1) 100 later

/-- Run of `grubfm_add_ini_menu` from `w` in which section `i` leaves no entry and the
later section `j` is emitted: the final menu is the old menu, entries of sections below
`i`, entries of sections strictly between `i` and `j`, the entry built from section
`j`, entries of sections above `j`. -/
def emitted_after_skip (S : Sys) (ini : ini_t) (i j : Nat) (w : World) : Prop :=
  ∃ e before between after, section_entry S ini j e ∧
    (grubfm_add_ini_menu S ini w).menu = w.menu ++ before ++ between ++ e :: after ∧
    ascending_sections S ini 0 i before ∧ ascending_sections S ini (i + 1) j between ∧
    ascending_sections S ini (j + 1) 100 after

/-- Value of `enable` that names a build target in the source comment
`enable = all|efi|bios`: "efi" for tag `e`, "bios" for tag `b`, none for tag `u`. -/
def platform_value : Machine → Option String
  | .efi => some "efi"
  | .pcbios => some "bios"
  | .other => none

/-! ## A concrete installation

The end-to-end scenario of the specification: a BIOS build, an extension table whose
entry for `.iso` has one section `menu=boot_iso`, and a global configuration with one
section `menu=reboot`. -/

/-- Configuration of the `.iso` extension: section "0" with `menu=boot_iso`. -/
def iso_config : ini_t := fun sect key =>
  if sect = "0" ∧ key = "menu" then some "boot_iso" else none

/-- Global configuration: section "0" with `menu=reboot`. -/
def global_config : ini_t := fun sect key =>
  if sect = "0" ∧ key = "menu" then some "reboot" else none

/-- Classifier of the scenario: index 0 for names ending in `.iso`, else -1. -/
def iso_classifier (name : String) (_size : String) : Int :=
  if name.toList.drop (name.length - 4) = ['.', 'i', 's', 'o'] then 0 else -1

/-- File layer of the scenario: `/a/b/c.iso` and `/a/b/notes` exist. -/
def demo_open (path : String) : Option grub_file :=
  if path = "/a/b/c.iso" ∨ path = "/a/b/notes" then some ⟨path, 2048, 0⟩ else none

/-- Installation of the scenario; scripts leave the environment alone. -/
def demo_sys : Sys where
  machine := .pcbios
  grubfm_root := "hd0"
  grubfm_boot := 0
  grubfm_ini_config := global_config
  ext_config := fun _ => iso_config
  gettext := id
  exec := fun _ env => env
  grub_file_open := demo_open
  grub_get_human_size := fun _ => "2K"
  grubfm_get_file_icon := iso_classifier

/-- Configuration with a gap: sections "0", "1", "2" carry `menu`, section "3" has a
title but no `menu`, section "5" is fully populated. -/
def gapped_config : ini_t := fun sect key =>
  if sect = "0" ∧ key = "menu" then some "first"
  else if sect = "1" ∧ key = "menu" then some "second"
  else if sect = "2" ∧ key = "menu" then some "third"
  else if sect = "3" ∧ key = "title" then some "Fourth"
  else if sect = "5" ∧ key = "menu" then some "sixth"
  else if sect = "5" ∧ key = "title" then some "Sixth"
  else if sect = "5" ∧ key = "icon" then some "iso"
  else if sect = "5" ∧ key = "hotkey" then some "s"
  else if sect = "5" ∧ key = "enable" then some "all"
  else none

/-- Configuration with a BIOS-only section: section "0" `menu=any`, section "1"
`menu=legacy`, `enable=bios`. -/
def bios_config : ini_t := fun sect key =>
  if sect = "0" ∧ key = "menu" then some "any"
  else if sect = "1" ∧ key = "menu" then some "legacy"
  else if sect = "1" ∧ key = "enable" then some "bios"
  else none

/-- The installation of the scenario built for EFI. -/
def demo_sys_efi : Sys := { demo_sys with machine := .efi }

/-- Configuration of `.iso` with a rule: section "0" `menu=boot_iso`,
`condition=check_uefi`; section "1" `menu=mount_iso`. -/
def iso_cond_config : ini_t := fun sect key =>
  if sect = "0" ∧ key = "menu" then some "boot_iso"
  else if sect = "0" ∧ key = "condition" then some "check_uefi"
  else if sect = "1" ∧ key = "menu" then some "mount_iso"
  else none

/-- Configuration of `.iso` whose only section has a rule: section "0"
`menu=boot_iso`, `condition=check_uefi`. -/
def iso_only_cond_config : ini_t := fun sect key =>
  if sect = "0" ∧ key = "menu" then some "boot_iso"
  else if sect = "0" ∧ key = "condition" then some "check_uefi"
  else none

/-- Script evaluator under which every script leaves `grubfm_test` at the given value
(`none`: unset) and no other variable. -/
def exec_value (v : Option String) (_src : String) (_env : Env) : Env :=
  match v with
  | none => []
  | some value => [("grubfm_test", value)]

/-- The installation of the scenario with rule files that leave `grubfm_test` at `v`. -/
def demo_sys_value (v : Option String) : Sys := { demo_sys with exec := exec_value v }

/-- The installation of the scenario with the rule `check_uefi` evaluating to false. -/
def demo_sys_cond : Sys :=
  { demo_sys with ext_config := fun _ => iso_only_cond_config, exec := exec_value (some "0") }

/-- Line reader over a file content: the text up to the next newline, and the offset
after that newline (or at the end of the content). -/
def getline_of (data : List Char) (file : grub_file) : Option String × Nat :=
  let rest := data.drop file.offset
  let line := rest.takeWhile (fun ch => ch != '\n')
  (some (String.mk line), file.offset + line.length + (if line.length < rest.length then 1 else 0))

/-- Content of 40 lines `x`, 80 bytes. -/
def forty_lines : List Char := (List.replicate 40 ['x', '\n']).flatten

/-- Terminal and file layer of the pager scenario: a 1024x768 screen, 64-bit sizes, the
80-byte file `/notes` of 40 lines and the file `/big` of 2 MiB. -/
def demo_text : TextSys where
  size_bits := 64
  FONT_SPACE := 20
  GRUB_TERM_ESC := 27
  GRUB_TERM_KEY_UP := 8388680
  GRUB_TERM_KEY_DOWN := 8388688
  screen_info := (1024, 768)
  grub_file_open := fun path =>
    if path = "/notes" then some ⟨path, 80, 0⟩
    else if path = "/big" then some ⟨path, 2097152, 0⟩
    else none
  grub_file_getline := getline_of forty_lines
  grub_get_human_size := fun _ => "80B"
  gettext := id

/-- Configuration of `.iso` with an auto-boot script: `type`/`boot` is `iso_auto`,
section "0" has `menu=boot_iso`. -/
def iso_boot_config : ini_t := fun sect key =>
  if sect = "type" ∧ key = "boot" then some "iso_auto"
  else if sect = "0" ∧ key = "menu" then some "boot_iso"
  else none

/-- The installation of the scenario with auto-boot switched on. -/
def demo_sys_boot : Sys :=
  { demo_sys with grubfm_boot := 1, ext_config := fun _ => iso_boot_config }

/-- Configuration with `enable` values outside `all|efi|bios`: section "0" `menu=any`,
`enable=abc`; section "1" `menu=other`, `enable=extra`; section "2" `menu=third`,
`enable=zzz`. -/
def odd_enable_config : ini_t := fun sect key =>
  if sect = "0" ∧ key = "menu" then some "any"
  else if sect = "0" ∧ key = "enable" then some "abc"
  else if sect = "1" ∧ key = "menu" then some "other"
  else if sect = "1" ∧ key = "enable" then some "extra"
  else if sect = "2" ∧ key = "menu" then some "third"
  else if sect = "2" ∧ key = "enable" then some "zzz"
  else none

/-- Configuration with two rules: section "0" `menu=boot_iso`, `condition=check_uefi`;
section "1" `menu=mount_iso`, `condition=check_any`. -/
def two_rule_config : ini_t := fun sect key =>
  if sect = "0" ∧ key = "menu" then some "boot_iso"
  else if sect = "0" ∧ key = "condition" then some "check_uefi"
  else if sect = "1" ∧ key = "menu" then some "mount_iso"
  else if sect = "1" ∧ key = "condition" then some "check_any"
  else none

/-- Script evaluator under which the rule file `check_uefi` sets `grubfm_test` to "0"
and every other script sets it to "1". -/
def exec_rules (src : String) (_env : Env) : Env :=
  if src = "unset grubfm_test\nsource (hd0)/boot/grub/rules/check_uefi\n" then
    [("grubfm_test", "0")]
  else [("grubfm_test", "1")]

/-- The installation of the scenario with the rule `check_uefi` false and every other
rule true. -/
def demo_sys_rules : Sys :=
  { demo_sys with ext_config := fun _ => iso_only_cond_config, exec := exec_rules }

/-- Initial state: nothing set, nothing emitted, every allocation succeeds. -/
def demo_world : World := ⟨[], [], [], []⟩

/-! ## Lemmas on the section loop -/

theorem grub_xasprintf_menu (text : String) (w : World) :
    (grub_xasprintf text w).2.menu = w.menu ∧ (grub_xasprintf text w).2.env = w.env ∧
    (grub_xasprintf text w).2.scripts = w.scripts ∧
    ((grub_xasprintf text w).1 = none ∨ (grub_xasprintf text w).1 = some text) := by
  unfold grub_xasprintf
  cases h : w.allocs with
  | nil => simp
  | cons ok rest => cases ok <;> simp

theorem grubfm_ini_menu_check_menu (S : Sys) (c : String) (w : World) :
    (grubfm_ini_menu_check S c w).2.menu = w.menu := by
  unfold grubfm_ini_menu_check
  have hx := grub_xasprintf_menu ("unset grubfm_test\nsource (" ++ S.grubfm_root
      ++ ")/boot/grub/rules/" ++ c ++ "\n") w
  rcases hx with ⟨hm, -, -, -⟩
  generalize grub_xasprintf _ w = r at hm ⊢
  obtain ⟨o, w1⟩ := r
  cases o with
  | none => simpa using hm
  | some src =>
    simp only [grub_script_execute_sourcecode]
    split
    · simpa using hm
    · split <;> simpa using hm

/-- What one pass of the loop does to the menu. -/
theorem ini_menu_body_cases (S : Sys) (ini : ini_t) (i : Nat) (w : World) :
    (ini_menu_body S ini i w = none ∧ ini_get ini (toString i) "menu" = none) ∨
    (∃ w1, ini_menu_body S ini i w = some w1 ∧ ini_get ini (toString i) "menu" ≠ none ∧
      (w1.menu = w.menu ∨ ∃ e, w1.menu = w.menu ++ [e] ∧ section_entry S ini i e)) := by
  unfold ini_menu_body
  cases hm : ini_get ini (toString i) "menu" with
  | none => left; simp [hm]
  | some script =>
    right
    simp only [hm]
    by_cases hen : enable_skips S (ini_get ini (toString i) "enable") = true
    · exact ⟨w, by simp [hen], by simp, Or.inl rfl⟩
    · have hpass : ∃ p w1, (match ini_get ini (toString i) "condition" with
          | none => ((1 : Int), w)
          | some condition => grubfm_ini_menu_check S condition w) = (p, w1) ∧
          w1.menu = w.menu := by
        cases hc : ini_get ini (toString i) "condition" with
        | none => exact ⟨1, w, rfl, rfl⟩
        | some c =>
          exact ⟨(grubfm_ini_menu_check S c w).1, (grubfm_ini_menu_check S c w).2, rfl,
            grubfm_ini_menu_check_menu S c w⟩
      obtain ⟨p, w1, hpw, hw1⟩ := hpass
      simp only [hen, hpw]
      by_cases hp : p = 0
      · exact ⟨w1, by simp [hp], by simp, Or.inl hw1⟩
      · obtain ⟨hxm, -, -, hxs⟩ := grub_xasprintf_menu ("configfile (" ++ S.grubfm_root
          ++ ")/boot/grub/rules/" ++ script ++ "\n") w1
        refine ⟨_, by simp only [hp]; rfl, by simp, Or.inr
          ⟨⟨S.gettext ((ini_get ini (toString i) "title").getD "MENU"),
            (ini_get ini (toString i) "icon").getD "file",
            ini_get ini (toString i) "hotkey",
            (grub_xasprintf ("configfile (" ++ S.grubfm_root
              ++ ")/boot/grub/rules/" ++ script ++ "\n") w1).1,
            if (ini_get ini (toString i) "hidden").isSome then 1 else 0⟩, ?_, ?_⟩⟩
        · simp only [grubfm_add_menu, hxm, hw1]
        · refine ⟨script, hm, rfl, rfl, rfl, rfl, ?_⟩
          simpa [configfile_cmd] using hxs

theorem ascending_sections_nil (S : Sys) (ini : ini_t) (lo hi : Nat) :
    ascending_sections S ini lo hi [] :=
  ⟨[], List.sorted_nil, by simp, List.Forall₂.nil⟩

theorem ascending_sections_step (S : Sys) (ini : ini_t) (i hi : Nat) (es : List MenuEntry)
    (hm : ini_get ini (toString i) "menu" ≠ none)
    (h : ascending_sections S ini (i + 1) hi es) : ascending_sections S ini i hi es := by
  obtain ⟨secs, hs, hb, hf⟩ := h
  refine ⟨secs, hs, ?_, hf⟩
  intro s hsm
  obtain ⟨h1, h2, h3⟩ := hb s hsm
  refine ⟨by omega, h2, ?_⟩
  intro j hj1 hj2
  by_cases hji : j = i
  · subst hji; exact hm
  · exact h3 j (by omega) hj2

theorem ascending_sections_cons (S : Sys) (ini : ini_t) (i hi : Nat) (e : MenuEntry)
    (es : List MenuEntry) (hi1 : i < hi) (he : section_entry S ini i e)
    (h : ascending_sections S ini (i + 1) hi es) :
    ascending_sections S ini i hi (e :: es) := by
  have hm : ini_get ini (toString i) "menu" ≠ none := by
    obtain ⟨script, hs, -⟩ := he
    simp [hs]
  obtain ⟨secs, hs, hb, hf⟩ := h
  refine ⟨i :: secs, ?_, ?_, List.Forall₂.cons he hf⟩
  · refine List.sorted_cons.mpr ⟨?_, hs⟩
    intro s hsm
    have := (hb s hsm).1
    omega
  · intro s hsm
    rcases List.mem_cons.mp hsm with rfl | hsm
    · refine ⟨le_refl _, hi1, ?_⟩
      intro j hj1 hj2
      have : j = s := by omega
      subst this; exact hm
    · obtain ⟨h1, h2, h3⟩ := hb s hsm
      refine ⟨by omega, h2, ?_⟩
      intro j hj1 hj2
      by_cases hji : j = i
      · subst hji; exact hm
      · exact h3 j (by omega) hj2

theorem ascending_sections_mono (S : Sys) (ini : ini_t) (lo hi hi1 : Nat)
    (es : List MenuEntry) (hle : hi ≤ hi1) (h : ascending_sections S ini lo hi es) :
    ascending_sections S ini lo hi1 es := by
  obtain ⟨secs, hs, hb, hf⟩ := h
  refine ⟨secs, hs, ?_, hf⟩
  intro s hsm
  obtain ⟨h1, h2, h3⟩ := hb s hsm
  exact ⟨h1, by omega, h3⟩

/-- The loop only appends to the menu, and what it appends comes from sections with
ascending numbers. -/
theorem ini_menu_loop_trace (S : Sys) (ini : ini_t) :
    ∀ (n i : Nat) (w : World), ∃ es, (ini_menu_loop S ini n i w).menu = w.menu ++ es ∧
      ascending_sections S ini i (i + n) es := by
  intro n
  induction n with
  | zero =>
    intro i w
    exact ⟨[], by simp [ini_menu_loop], ascending_sections_nil S ini _ _⟩
  | succ n ih =>
    intro i w
    rcases ini_menu_body_cases S ini i w with ⟨hb, -⟩ | ⟨w1, hb, hm, hmenu⟩
    · exact ⟨[], by simp [ini_menu_loop, hb], ascending_sections_nil S ini _ _⟩
    · obtain ⟨es, hes, hasc⟩ := ih (i + 1) w1
      have hasc1 : ascending_sections S ini (i + 1) (i + (n + 1)) es :=
        ascending_sections_mono S ini _ _ _ es (by omega) hasc
      rcases hmenu with hsame | ⟨e, he, hse⟩
      · refine ⟨es, ?_, ascending_sections_step S ini i _ es hm hasc1⟩
        simp only [ini_menu_loop, hb, hes, hsame]
      · refine ⟨e :: es, ?_, ascending_sections_cons S ini i _ e es (by omega) hse hasc1⟩
        simp only [ini_menu_loop, hb, hes, he, List.append_assoc, List.singleton_append]

theorem grubfm_add_ini_menu_trace (S : Sys) (ini : ini_t) (w : World) :
    (grubfm_add_ini_menu S ini w).menu = w.menu ++ emitted_by (grubfm_add_ini_menu S ini) w ∧
    ascending_sections S ini 0 100 (emitted_by (grubfm_add_ini_menu S ini) w) := by
  obtain ⟨es, hes, hasc⟩ := ini_menu_loop_trace S ini 100 0 w
  have he : emitted_by (grubfm_add_ini_menu S ini) w = es := by
    simp [emitted_by, grubfm_add_ini_menu, hes]
  rw [he]
  exact ⟨hes, by simpa using hasc⟩

/-- Two configurations that agree on section `i` make the same pass. -/
theorem ini_menu_body_congr (S : Sys) (ini ini1 : ini_t) (i : Nat) (w : World)
    (h : ∀ key, ini_get ini1 (toString i) key = ini_get ini (toString i) key) :
    ini_menu_body S ini1 i w = ini_menu_body S ini i w := by
  simp only [ini_menu_body, h]

/-- A loop that starts at or below a section without `menu` never looks past it. -/
theorem ini_menu_loop_congr (S : Sys) (ini ini1 : ini_t) (k : Nat)
    (hk : ini_get ini (toString k) "menu" = none)
    (hk1 : ini_get ini1 (toString k) "menu" = none)
    (hagree : ∀ j, j < k → ∀ key, ini_get ini1 (toString j) key = ini_get ini (toString j) key) :
    ∀ (n i : Nat) (w : World), i ≤ k →
      ini_menu_loop S ini1 n i w = ini_menu_loop S ini n i w := by
  intro n
  induction n with
  | zero => intro i w _; rfl
  | succ n ih =>
    intro i w hik
    rcases Nat.lt_or_eq_of_le hik with hlt | heq
    · simp only [ini_menu_loop, ini_menu_body_congr S ini ini1 i w (hagree i hlt)]
      cases ini_menu_body S ini i w with
      | none => rfl
      | some w1 => exact ih (i + 1) w1 hlt
    · subst heq
      have h1 : ini_menu_body S ini1 i w = none := by simp [ini_menu_body, hk1]
      have h2 : ini_menu_body S ini i w = none := by simp [ini_menu_body, hk]
      simp [ini_menu_loop, h1, h2]

/-- Splitting the loop at a section that is reached. -/
theorem ini_menu_loop_split (S : Sys) (ini : ini_t) :
    ∀ (m n i : Nat) (w : World),
      (∀ j, i ≤ j → j < i + m → ini_get ini (toString j) "menu" ≠ none) →
      ini_menu_loop S ini (m + n) i w =
        ini_menu_loop S ini n (i + m) (ini_menu_loop S ini m i w) := by
  intro m
  induction m with
  | zero => intro n i w _; simp [ini_menu_loop]
  | succ m ih =>
    intro n i w hreach
    have hm : ini_get ini (toString i) "menu" ≠ none := hreach i (le_refl _) (by omega)
    rcases ini_menu_body_cases S ini i w with ⟨-, hnone⟩ | ⟨w1, hb, -, -⟩
    · exact absurd hnone hm
    · have e1 : m + 1 + n = (m + n) + 1 := by omega
      rw [e1]
      simp only [ini_menu_loop, hb]
      rw [ih n (i + 1) w1 (fun j h1 h2 => hreach j (by omega) (by omega))]
      have e2 : i + 1 + m = i + (m + 1) := by omega
      rw [e2]

/-! ## Lemmas on the Back entry and the resolver -/

theorem grub_strrchr_none (c : Char) :
    ∀ l : List Char, grub_strrchr l c = none → c ∉ l := by
  intro l
  induction l with
  | nil => intro _; simp
  | cons x xs ih =>
    intro h
    simp only [grub_strrchr] at h
    cases hr : grub_strrchr xs c with
    | some i => simp [hr] at h
    | none =>
      simp only [hr] at h
      have hx : ¬ x = c := by
        intro hxc
        simp [hxc] at h
      have := ih hr
      simp only [List.mem_cons, not_or]
      exact ⟨fun hcx => hx hcx.symm, this⟩

theorem grub_strrchr_some (c : Char) :
    ∀ (l : List Char) (i : Nat), grub_strrchr l c = some i →
      l = l.take i ++ c :: l.drop (i + 1) ∧ c ∉ l.drop (i + 1) := by
  intro l
  induction l with
  | nil => intro i h; simp [grub_strrchr] at h
  | cons x xs ih =>
    intro i h
    simp only [grub_strrchr] at h
    cases hr : grub_strrchr xs c with
    | some j =>
      simp only [hr, Option.some.injEq] at h
      subst h
      obtain ⟨h1, h2⟩ := ih j hr
      refine ⟨?_, by simpa using h2⟩
      simp only [List.take_succ_cons, List.drop_succ_cons, List.cons_append]
      exact congrArg (List.cons x) h1
    | none =>
      simp only [hr] at h
      by_cases hx : x = c
      · simp only [hx, if_true, Option.some.injEq] at h
        subst h
        subst hx
        exact ⟨by simp, by simpa using grub_strrchr_none x xs hr⟩
      · simp [hx] at h

theorem grub_strrchr_mem (c : Char) (l : List Char) (h : c ∈ l) :
    ∃ i, grub_strrchr l c = some i := by
  cases hr : grub_strrchr l c with
  | none => exact absurd h (grub_strrchr_none c l hr)
  | some i => exact ⟨i, rfl⟩

/-- For a path with a `/`, `grubfm_add_menu_back` appends the Back entry and touches
neither the environment nor the script log. -/
theorem grubfm_add_menu_back_spec (S : Sys) (path : String) (w : World)
    (hslash : '/' ∈ path.toList) :
    ∃ w0 back, grubfm_add_menu_back S path w = some w0 ∧ w0.menu = w.menu ++ [back] ∧
      is_back_entry S path back ∧ w0.env = w.env ∧ w0.scripts = w.scripts := by
  obtain ⟨i, hi⟩ := grub_strrchr_mem '/' path.toList hslash
  obtain ⟨hsplit, hbase⟩ := grub_strrchr_some '/' path.toList i hi
  obtain ⟨hxm, hxe, hxs, hxr⟩ :=
    grub_xasprintf_menu ("grubfm \"" ++ String.mk (path.toList.take i) ++ "/\"") w
  refine ⟨grubfm_add_menu (S.gettext "Back") "go-previous" none
      (grub_xasprintf ("grubfm \"" ++ String.mk (path.toList.take i) ++ "/\"") w).1 0
      (grub_xasprintf ("grubfm \"" ++ String.mk (path.toList.take i) ++ "/\"") w).2,
    ⟨S.gettext "Back", "go-previous", none,
      (grub_xasprintf ("grubfm \"" ++ String.mk (path.toList.take i) ++ "/\"") w).1, 0⟩,
    by simp only [grubfm_add_menu_back, hi], ?_, ?_, ?_, ?_⟩
  · simp only [grubfm_add_menu, hxm]
  · exact ⟨rfl, rfl, rfl, rfl, path.toList.take i, path.toList.drop (i + 1), hsplit, hbase, hxr⟩
  · simp only [grubfm_add_menu, hxe]
  · simp only [grubfm_add_menu, hxs]

theorem open_file_boot_menu (S : Sys) (ext : Int) (w : World) :
    (open_file_boot S ext w).menu = w.menu := by
  unfold open_file_boot
  split
  · split
    · rfl
    · rename_i boot_script _
      obtain ⟨hxm, -, -, -⟩ := grub_xasprintf_menu ("source (" ++ S.grubfm_root
        ++ ")/boot/grub/rules/" ++ boot_script ++ "\n") w
      generalize grub_xasprintf _ w = r at hxm ⊢
      obtain ⟨o, w1⟩ := r
      cases o with
      | none => simpa using hxm
      | some src => simpa [grub_script_execute_sourcecode] using hxm
  · rfl

/-- Shape of the menu after `grubfm_open_file` on a path that opens. -/
theorem grubfm_open_file_spec (S : Sys) (path : String) (w : World) (file : grub_file)
    (hslash : '/' ∈ path.toList) (hopen : S.grub_file_open path = some file) :
    ∃ w0 back w3, grubfm_add_menu_back S path w = some w0 ∧ w0.menu = w.menu ++ [back] ∧
      is_back_entry S path back ∧ grubfm_open_file S path w = some w3 ∧
      w3.menu = w.menu ++ [back] ++ type_group S file w0 ++ global_group S file w0 ∧
      (file_ext S file < 0 → type_group S file w0 = []) ∧
      ascending_sections S (S.ext_config (file_ext S file).toNat) 0 100 (type_group S file w0) ∧
      ascending_sections S S.grubfm_ini_config 0 100 (global_group S file w0) := by
  obtain ⟨w0, back, hback, hmenu0, hisback, -, -⟩ := grubfm_add_menu_back_spec S path w hslash
  refine ⟨w0, back, grubfm_add_ini_menu S S.grubfm_ini_config
      (open_file_type_menu S (file_ext S file) (open_file_boot S (file_ext S file) w0)),
    hback, hmenu0, hisback, by simp only [grubfm_open_file, hback, hopen], ?_, ?_, ?_, ?_⟩
  · rw [(grubfm_add_ini_menu_trace S S.grubfm_ini_config _).1]
    unfold global_group
    congr 1
    unfold open_file_type_menu type_group
    by_cases hext : file_ext S file ≥ 0
    · simp only [hext, if_true]
      rw [(grubfm_add_ini_menu_trace S _ _).1, open_file_boot_menu, hmenu0]
    · simp only [hext, if_false, List.append_nil, open_file_boot_menu, hmenu0]
  · intro hneg
    have : ¬ file_ext S file ≥ 0 := by omega
    simp only [type_group, this, if_false]
  · unfold type_group
    by_cases hext : file_ext S file ≥ 0
    · simp only [hext, if_true]
      exact (grubfm_add_ini_menu_trace S _ _).2
    · simp only [hext, if_false]
      exact ascending_sections_nil S _ _ _
  · exact (grubfm_add_ini_menu_trace S _ _).2

/-! ## The claims -/

/-- C1. For every path that contains a `/` and opens, `grubfm_open_file` appends to the
menu exactly the Back entry, then the entries `grubfm_add_ini_menu` produces for the
configuration of the classified extension (none when `info.ext < 0`), then the entries
it produces for the global configuration (also when the file is unclassified); each of
the two groups comes from sections with strictly ascending numbers. -/
theorem grubfm_open_file_menu_order (S : Sys) (path : String) (w : World) (file : grub_file)
    (hslash : '/' ∈ path.toList) (hopen : S.grub_file_open path = some file) :
    ∃ w0 back w3, grubfm_add_menu_back S path w = some w0 ∧ w0.menu = w.menu ++ [back] ∧
      is_back_entry S path back ∧ grubfm_open_file S path w = some w3 ∧
      w3.menu = w.menu ++ [back] ++ type_group S file w0 ++ global_group S file w0 ∧
      (file_ext S file < 0 → type_group S file w0 = []) ∧
      ascending_sections S (S.ext_config (file_ext S file).toNat) 0 100 (type_group S file w0) ∧
      ascending_sections S S.grubfm_ini_config 0 100 (global_group S file w0) :=
  grubfm_open_file_spec S path w file hslash hopen

/-- Instance of C1 on the scenario: `/a/b/c.iso` yields Back, the `.iso` entry and the
global entry; the unclassified `/a/b/notes` yields Back and the global entry. -/
theorem grubfm_open_file_menu_order_witness :
    '/' ∈ "/a/b/c.iso".toList ∧
    demo_sys.grub_file_open "/a/b/c.iso" = some ⟨"/a/b/c.iso", 2048, 0⟩ ∧
    (∃ w0 back w3, grubfm_add_menu_back demo_sys "/a/b/c.iso" demo_world = some w0 ∧
      w0.menu = demo_world.menu ++ [back] ∧
      is_back_entry demo_sys "/a/b/c.iso" back ∧
      grubfm_open_file demo_sys "/a/b/c.iso" demo_world = some w3 ∧
      w3.menu = demo_world.menu ++ [back] ++ type_group demo_sys ⟨"/a/b/c.iso", 2048, 0⟩ w0
        ++ global_group demo_sys ⟨"/a/b/c.iso", 2048, 0⟩ w0 ∧
      (file_ext demo_sys ⟨"/a/b/c.iso", 2048, 0⟩ < 0 →
        type_group demo_sys ⟨"/a/b/c.iso", 2048, 0⟩ w0 = []) ∧
      ascending_sections demo_sys
        (demo_sys.ext_config (file_ext demo_sys ⟨"/a/b/c.iso", 2048, 0⟩).toNat) 0 100
        (type_group demo_sys ⟨"/a/b/c.iso", 2048, 0⟩ w0) ∧
      ascending_sections demo_sys demo_sys.grubfm_ini_config 0 100
        (global_group demo_sys ⟨"/a/b/c.iso", 2048, 0⟩ w0)) ∧
    (grubfm_open_file demo_sys "/a/b/c.iso" demo_world).map
        (fun w3 => w3.menu.map MenuEntry.src) =
      some [some "grubfm \"/a/b/\"", some "configfile (hd0)/boot/grub/rules/boot_iso\n",
        some "configfile (hd0)/boot/grub/rules/reboot\n"] ∧
    (grubfm_open_file demo_sys "/a/b/notes" demo_world).map
        (fun w3 => w3.menu.map MenuEntry.src) =
      some [some "grubfm \"/a/b/\"", some "configfile (hd0)/boot/grub/rules/reboot\n"] :=
  ⟨by decide, by decide,
    grubfm_open_file_menu_order demo_sys "/a/b/c.iso" demo_world ⟨"/a/b/c.iso", 2048, 0⟩
      (by decide) (by decide),
    by decide, by decide⟩

/-- C2. A section without `menu` ends the walk of `grubfm_add_ini_menu`: the result is
the same for every configuration that agrees on the sections below it, whatever the
sections at and above it hold besides, and every entry produced comes from a section
numbered below it. -/
theorem grubfm_add_ini_menu_stops (S : Sys) (ini : ini_t) (k : Nat) (w : World)
    (hk : ini_get ini (toString k) "menu" = none) :
    (∀ ini1 : ini_t, ini_get ini1 (toString k) "menu" = none →
      (∀ j, j < k → ∀ key, ini_get ini1 (toString j) key = ini_get ini (toString j) key) →
      grubfm_add_ini_menu S ini1 w = grubfm_add_ini_menu S ini w) ∧
    (grubfm_add_ini_menu S ini w).menu = w.menu ++ emitted_by (grubfm_add_ini_menu S ini) w ∧
    ascending_sections S ini 0 k (emitted_by (grubfm_add_ini_menu S ini) w) := by
  refine ⟨?_, (grubfm_add_ini_menu_trace S ini w).1, ?_⟩
  · intro ini1 hk1 hagree
    exact ini_menu_loop_congr S ini ini1 k hk hk1 hagree 100 0 w (Nat.zero_le k)
  · obtain ⟨secs, hs, hb, hf⟩ := (grubfm_add_ini_menu_trace S ini w).2
    refine ⟨secs, hs, ?_, hf⟩
    intro s hsm
    obtain ⟨h1, h2, h3⟩ := hb s hsm
    refine ⟨h1, ?_, h3⟩
    by_contra hge
    exact h3 k (Nat.zero_le k) (by omega) hk

/-- Instance of C2: section "3" of `gapped_config` lacks `menu`, and the populated
section "5" produces no entry. -/
theorem grubfm_add_ini_menu_stops_witness :
    ini_get gapped_config (toString 3) "menu" = none ∧
    ((∀ ini1 : ini_t, ini_get ini1 (toString 3) "menu" = none →
      (∀ j, j < 3 → ∀ key,
        ini_get ini1 (toString j) key = ini_get gapped_config (toString j) key) →
      grubfm_add_ini_menu demo_sys ini1 demo_world =
        grubfm_add_ini_menu demo_sys gapped_config demo_world) ∧
    (grubfm_add_ini_menu demo_sys gapped_config demo_world).menu = demo_world.menu ++
      emitted_by (grubfm_add_ini_menu demo_sys gapped_config) demo_world ∧
    ascending_sections demo_sys gapped_config 0 3
      (emitted_by (grubfm_add_ini_menu demo_sys gapped_config) demo_world)) ∧
    (grubfm_add_ini_menu demo_sys gapped_config demo_world).menu.map MenuEntry.src =
      [some "configfile (hd0)/boot/grub/rules/first\n",
       some "configfile (hd0)/boot/grub/rules/second\n",
       some "configfile (hd0)/boot/grub/rules/third\n"] :=
  ⟨by decide, grubfm_add_ini_menu_stops demo_sys gapped_config 3 demo_world (by decide),
    by decide⟩

/-! ## Lemmas on single passes of the loop -/

theorem section_link (S : Sys) (ini : ini_t) (i : Nat) (w w1 : World) (hreach : reaches ini i)
    (hb : ini_menu_body S ini i (state_at S ini i w) = some w1) :
    grubfm_add_ini_menu S ini w = ini_menu_loop S ini (99 - i) (i + 1) w1 := by
  obtain ⟨hi, hmenus⟩ := hreach
  have e1 : 100 = i + ((99 - i) + 1) := by omega
  unfold grubfm_add_ini_menu
  rw [e1, ini_menu_loop_split S ini i ((99 - i) + 1) 0 w (fun j _ h2 => hmenus j (by omega))]
  simp only [Nat.zero_add, ini_menu_loop]
  unfold state_at at hb
  rw [hb]

theorem section_emitted_intro (S : Sys) (ini : ini_t) (i : Nat) (w w1 : World) (e : MenuEntry)
    (hreach : reaches ini i)
    (hb : ini_menu_body S ini i (state_at S ini i w) = some w1)
    (hmenu : w1.menu = (state_at S ini i w).menu ++ [e]) (he : section_entry S ini i e) :
    section_emitted S ini i w := by
  have hlink := section_link S ini i w w1 hreach hb
  obtain ⟨earlier, hearlier, hasc1⟩ := ini_menu_loop_trace S ini i 0 w
  obtain ⟨later, hlater, hasc2⟩ := ini_menu_loop_trace S ini (99 - i) (i + 1) w1
  have hi := hreach.1
  refine ⟨e, w1, earlier, later, hb, hmenu, he, hlink, ?_, by simpa using hasc1, ?_⟩
  · have hs : (state_at S ini i w).menu = w.menu ++ earlier := hearlier
    rw [hlink, hlater, hmenu, hs]
    simp
  · have e2 : i + 1 + (99 - i) = 100 := by omega
    rw [e2] at hasc2
    exact hasc2

theorem section_skipped_intro (S : Sys) (ini : ini_t) (i : Nat) (w w1 : World)
    (hreach : reaches ini i)
    (hb : ini_menu_body S ini i (state_at S ini i w) = some w1)
    (hmenu : w1.menu = (state_at S ini i w).menu) :
    section_skipped S ini i w := by
  have hlink := section_link S ini i w w1 hreach hb
  obtain ⟨earlier, hearlier, hasc1⟩ := ini_menu_loop_trace S ini i 0 w
  obtain ⟨later, hlater, hasc2⟩ := ini_menu_loop_trace S ini (99 - i) (i + 1) w1
  have hi := hreach.1
  refine ⟨w1, earlier, later, hb, hmenu, hlink, ?_, by simpa using hasc1, ?_⟩
  · have hs : (state_at S ini i w).menu = w.menu ++ earlier := hearlier
    rw [hlink, hlater, hmenu, hs]
  · have e2 : i + 1 + (99 - i) = 100 := by omega
    rw [e2] at hasc2
    exact hasc2

/-- A pass whose `enable` test fires leaves the state as it is. -/
theorem ini_menu_body_enable_skip (S : Sys) (ini : ini_t) (i : Nat) (w : World)
    (hmenu : ini_get ini (toString i) "menu" ≠ none)
    (hen : enable_skips S (ini_get ini (toString i) "enable") = true) :
    ini_menu_body S ini i w = some w := by
  unfold ini_menu_body
  cases hm : ini_get ini (toString i) "menu" with
  | none => exact absurd hm hmenu
  | some script => simp [hm, hen]

/-- A pass that passes the `enable` test and has no `condition` emits its entry. -/
theorem ini_menu_body_emit (S : Sys) (ini : ini_t) (i : Nat) (w : World)
    (hmenu : ini_get ini (toString i) "menu" ≠ none)
    (hen : enable_skips S (ini_get ini (toString i) "enable") = false)
    (hcond : ini_get ini (toString i) "condition" = none) :
    ∃ w1 e, ini_menu_body S ini i w = some w1 ∧ w1.menu = w.menu ++ [e] ∧
      section_entry S ini i e := by
  rcases ini_menu_body_cases S ini i w with ⟨-, hnone⟩ | ⟨w1, hb, -, hsame | ⟨e, he, hse⟩⟩
  · exact absurd hnone hmenu
  · exfalso
    cases hm : ini_get ini (toString i) "menu" with
    | none => exact absurd hm hmenu
    | some script =>
      obtain ⟨hxm, -, -, -⟩ := grub_xasprintf_menu ("configfile (" ++ S.grubfm_root
          ++ ")/boot/grub/rules/" ++ script ++ "\n") w
      simp only [ini_menu_body, hm, hen, hcond, Bool.false_eq_true, if_false, one_ne_zero,
        Option.some.injEq] at hb
      subst hb
      simp [grubfm_add_menu, hxm] at hsame
  · exact ⟨w1, e, hb, he, hse⟩

/-- A pass that passes the `enable` test and whose rule check returns 0 emits nothing
and ends in the state the check leaves. -/
theorem ini_menu_body_check_false (S : Sys) (ini : ini_t) (i : Nat) (w : World) (c : String)
    (hmenu : ini_get ini (toString i) "menu" ≠ none)
    (hen : enable_skips S (ini_get ini (toString i) "enable") = false)
    (hcond : ini_get ini (toString i) "condition" = some c)
    (hcheck : (grubfm_ini_menu_check S c w).1 = 0) :
    ini_menu_body S ini i w = some (grubfm_ini_menu_check S c w).2 := by
  unfold ini_menu_body
  cases hm : ini_get ini (toString i) "menu" with
  | none => exact absurd hm hmenu
  | some script => simp [hm, hen, hcond, hcheck]

theorem enable_skips_bios (S : Sys) :
    enable_skips S (some "bios") = (platform S.machine != 'b') := by
  have h : c_str_head "bios" = 'b' := by decide
  simp only [enable_skips, h]
  cases S.machine <;> decide

theorem enable_skips_all (S : Sys) : enable_skips S (some "all") = false := by
  have h : c_str_head "all" = 'a' := by decide
  simp [enable_skips, h]

/-- C3. For a section the loop reaches, with a `menu` field and no `condition`: with
`enable` equal to "bios" its entry is emitted when the platform tag is `b` and is not
emitted when the tag is `e` or `u`; with `enable` equal to "all" or absent its entry is
emitted, whatever the platform tag. -/
theorem grubfm_enable_filter (S : Sys) (ini : ini_t) (i : Nat) (w : World)
    (hreach : reaches ini i)
    (hmenu : ini_get ini (toString i) "menu" ≠ none)
    (hcond : ini_get ini (toString i) "condition" = none) :
    (ini_get ini (toString i) "enable" = some "bios" →
      (platform S.machine = 'b' → section_emitted S ini i w) ∧
      (platform S.machine = 'e' ∨ platform S.machine = 'u' → section_skipped S ini i w)) ∧
    (ini_get ini (toString i) "enable" = some "all" ∨
        ini_get ini (toString i) "enable" = none → section_emitted S ini i w) := by
  have emit : enable_skips S (ini_get ini (toString i) "enable") = false →
      section_emitted S ini i w := by
    intro hen
    obtain ⟨w1, e, hb, hm, hse⟩ :=
      ini_menu_body_emit S ini i (state_at S ini i w) hmenu hen hcond
    exact section_emitted_intro S ini i w w1 e hreach hb hm hse
  refine ⟨fun hbios => ⟨fun hb => ?_, fun heu => ?_⟩, fun hall => ?_⟩
  · apply emit
    rw [hbios, enable_skips_bios, hb]
    decide
  · have hen : enable_skips S (ini_get ini (toString i) "enable") = true := by
      rw [hbios, enable_skips_bios]
      rcases heu with h | h <;> rw [h] <;> decide
    exact section_skipped_intro S ini i w _ hreach
      (ini_menu_body_enable_skip S ini i _ hmenu hen) rfl
  · apply emit
    rcases hall with h | h
    · rw [h, enable_skips_all]
    · rw [h]; rfl

/-- Instance of C3: section "1" of `bios_config` has `enable=bios`; it is passed over on
an EFI build and emitted on a BIOS build. -/
theorem grubfm_enable_filter_witness :
    reaches bios_config 1 ∧ ini_get bios_config (toString 1) "menu" ≠ none ∧
    ini_get bios_config (toString 1) "condition" = none ∧
    ((ini_get bios_config (toString 1) "enable" = some "bios" →
      (platform demo_sys_efi.machine = 'b' → section_emitted demo_sys_efi bios_config 1 demo_world) ∧
      (platform demo_sys_efi.machine = 'e' ∨ platform demo_sys_efi.machine = 'u' →
        section_skipped demo_sys_efi bios_config 1 demo_world)) ∧
    (ini_get bios_config (toString 1) "enable" = some "all" ∨
        ini_get bios_config (toString 1) "enable" = none →
      section_emitted demo_sys_efi bios_config 1 demo_world)) ∧
    (grubfm_add_ini_menu demo_sys_efi bios_config demo_world).menu.map MenuEntry.src =
      [some "configfile (hd0)/boot/grub/rules/any\n"] ∧
    (grubfm_add_ini_menu demo_sys bios_config demo_world).menu.map MenuEntry.src =
      [some "configfile (hd0)/boot/grub/rules/any\n",
       some "configfile (hd0)/boot/grub/rules/legacy\n"] :=
  ⟨by decide, by decide, by decide,
    grubfm_enable_filter demo_sys_efi bios_config 1 demo_world (by decide) (by decide)
      (by decide),
    by decide, by decide⟩

theorem ascending_sections_no_menu (S : Sys) (ini : ini_t) (lo hi : Nat) (es : List MenuEntry)
    (hk : ini_get ini (toString lo) "menu" = none) (h : ascending_sections S ini lo hi es) :
    es = [] := by
  obtain ⟨secs, -, hb, hf⟩ := h
  cases secs with
  | nil => cases hf; rfl
  | cons s rest =>
    obtain ⟨h1, -, h3⟩ := hb s (List.mem_cons_self s rest)
    exact absurd hk (h3 lo (le_refl _) h1)

theorem ascending_sections_empty (S : Sys) (ini : ini_t) (lo : Nat) (es : List MenuEntry)
    (h : ascending_sections S ini lo lo es) : es = [] := by
  obtain ⟨secs, -, hb, hf⟩ := h
  cases secs with
  | nil => cases hf; rfl
  | cons s rest =>
    obtain ⟨h1, h2, -⟩ := hb s (List.mem_cons_self s rest)
    omega

/-- A reached section with a `menu` field and a `condition` whose check returns 0 is
passed over. -/
theorem section_skipped_of_check (S : Sys) (ini : ini_t) (i : Nat) (w : World) (c : String)
    (hreach : reaches ini i)
    (hmenu : ini_get ini (toString i) "menu" ≠ none)
    (hcond : ini_get ini (toString i) "condition" = some c)
    (hcheck : (grubfm_ini_menu_check S c (state_at S ini i w)).1 = 0) :
    section_skipped S ini i w := by
  cases hen : enable_skips S (ini_get ini (toString i) "enable") with
  | true =>
    exact section_skipped_intro S ini i w _ hreach
      (ini_menu_body_enable_skip S ini i _ hmenu hen) rfl
  | false =>
    exact section_skipped_intro S ini i w _ hreach
      (ini_menu_body_check_false S ini i _ c hmenu hen hcond hcheck)
      (grubfm_ini_menu_check_menu S c _)

/-- A pass that passes the `enable` test and whose `condition` is absent or checks
true emits the entry of its section. -/
theorem ini_menu_body_emit_pass (S : Sys) (ini : ini_t) (j : Nat) (w : World)
    (hmenu : ini_get ini (toString j) "menu" ≠ none)
    (hen : enable_skips S (ini_get ini (toString j) "enable") = false)
    (hpass : ∀ cj, ini_get ini (toString j) "condition" = some cj →
      (grubfm_ini_menu_check S cj w).1 ≠ 0) :
    ∃ w1 e, ini_menu_body S ini j w = some w1 ∧ w1.menu = w.menu ++ [e] ∧
      section_entry S ini j e := by
  cases hc : ini_get ini (toString j) "condition" with
  | none => exact ini_menu_body_emit S ini j w hmenu hen hc
  | some cj =>
    have hne := hpass cj hc
    rcases ini_menu_body_cases S ini j w with ⟨-, hnone⟩ | ⟨w1, hb, -, hsame | ⟨e, he, hse⟩⟩
    · exact absurd hnone hmenu
    · exfalso
      cases hm : ini_get ini (toString j) "menu" with
      | none => exact absurd hm hmenu
      | some script =>
        obtain ⟨hxm, -, -, -⟩ := grub_xasprintf_menu ("configfile (" ++ S.grubfm_root
            ++ ")/boot/grub/rules/" ++ script ++ "\n") (grubfm_ini_menu_check S cj w).2
        have hcm := grubfm_ini_menu_check_menu S cj w
        simp only [ini_menu_body, hm, hen, hc, hne, Bool.false_eq_true, if_false,
          Option.some.injEq] at hb
        subst hb
        simp [grubfm_add_menu, hxm, hcm] at hsame
    · exact ⟨w1, e, hb, he, hse⟩

/-- Menu at the start of the pass for a section `j` that comes after a section `i`
whose pass left the menu as it was: the old menu, entries of sections below `i`,
entries of sections strictly between `i` and `j`. -/
theorem state_at_after_skip (S : Sys) (ini : ini_t) (i j : Nat) (w w1 : World)
    (hij : i < j) (hreach : reaches ini j)
    (hb : ini_menu_body S ini i (state_at S ini i w) = some w1)
    (hm : w1.menu = (state_at S ini i w).menu) :
    ∃ before between, (state_at S ini j w).menu = w.menu ++ before ++ between ∧
      ascending_sections S ini 0 i before ∧ ascending_sections S ini (i + 1) j between := by
  obtain ⟨-, hmenus⟩ := hreach
  obtain ⟨before, hbefore, hasc1⟩ := ini_menu_loop_trace S ini i 0 w
  have hstep : ini_menu_loop S ini (i + 1) 0 w = w1 := by
    rw [ini_menu_loop_split S ini i 1 0 w (fun k _ h2 => hmenus k (by omega))]
    simp only [Nat.zero_add, ini_menu_loop]
    unfold state_at at hb
    rw [hb]
  have hj : j = (i + 1) + (j - (i + 1)) := by omega
  have hsplit : state_at S ini j w =
      ini_menu_loop S ini (j - (i + 1)) (i + 1) w1 := by
    unfold state_at
    rw [hj, ini_menu_loop_split S ini (i + 1) (j - (i + 1)) 0 w
      (fun k _ h2 => hmenus k (by omega)), hstep, ← hj]
    simp
  obtain ⟨between, hbetween, hasc2⟩ := ini_menu_loop_trace S ini (j - (i + 1)) (i + 1) w1
  have e2 : i + 1 + (j - (i + 1)) = j := by omega
  rw [e2] at hasc2
  refine ⟨before, between, ?_, by simpa using hasc1, hasc2⟩
  have hs : (state_at S ini i w).menu = w.menu ++ before := hbefore
  rw [hsplit, hbetween, hm, hs]

/-- A section that passes the filters and comes after a section whose pass left the
menu as it was is emitted. -/
theorem emitted_after_skip_intro (S : Sys) (ini : ini_t) (i j : Nat) (w w1 : World)
    (hij : i < j) (hreach : reaches ini j)
    (hb : ini_menu_body S ini i (state_at S ini i w) = some w1)
    (hm : w1.menu = (state_at S ini i w).menu)
    (hmenu : ini_get ini (toString j) "menu" ≠ none)
    (hen : enable_skips S (ini_get ini (toString j) "enable") = false)
    (hpass : ∀ cj, ini_get ini (toString j) "condition" = some cj →
      (grubfm_ini_menu_check S cj (state_at S ini j w)).1 ≠ 0) :
    section_emitted S ini j w ∧ emitted_after_skip S ini i j w := by
  obtain ⟨wj, e, hbj, hmj, hse⟩ :=
    ini_menu_body_emit_pass S ini j (state_at S ini j w) hmenu hen hpass
  refine ⟨section_emitted_intro S ini j w wj e hreach hbj hmj hse, ?_⟩
  obtain ⟨before, between, hstate, hasc1, hasc2⟩ :=
    state_at_after_skip S ini i j w w1 hij hreach hb hm
  have hlink := section_link S ini j w wj hreach hbj
  obtain ⟨after, hafter, hasc3⟩ := ini_menu_loop_trace S ini (99 - j) (j + 1) wj
  have hj := hreach.1
  have e3 : j + 1 + (99 - j) = 100 := by omega
  rw [e3] at hasc3
  refine ⟨e, before, between, after, hse, ?_, hasc1, hasc2, hasc3⟩
  rw [hlink, hafter, hmj, hstate]
  simp

/-- C4. A reached section with a `menu` field whose `condition` is present and checks
false produces no entry and does not end the loop, which goes on with the next section.
Every later section that is reached and passes the filters (the `enable` test passes,
and its `condition` is absent or checks true in the state the loop has then) is still
emitted: the final menu holds entries of sections below the suppressed one, entries of
sections between the two, the entry of the later section, entries of higher sections.
In `grubfm_open_file`, when the only section of the type-specific configuration is
suppressed this way, the type-specific group is empty and the entries of the global
configuration follow the Back entry. -/
theorem grubfm_condition_false_skips (S : Sys) (ini : ini_t) (i : Nat) (w : World) (c : String)
    (hreach : reaches ini i)
    (hmenu : ini_get ini (toString i) "menu" ≠ none)
    (hcond : ini_get ini (toString i) "condition" = some c)
    (hcheck : (grubfm_ini_menu_check S c (state_at S ini i w)).1 = 0) :
    section_skipped S ini i w ∧
    (∀ j, i < j → reaches ini j → ini_get ini (toString j) "menu" ≠ none →
      enable_skips S (ini_get ini (toString j) "enable") = false →
      (∀ cj, ini_get ini (toString j) "condition" = some cj →
        (grubfm_ini_menu_check S cj (state_at S ini j w)).1 ≠ 0) →
      section_emitted S ini j w ∧ emitted_after_skip S ini i j w) ∧
    ∀ (path : String) (pw w0 : World) (file : grub_file) (c0 : String),
      '/' ∈ path.toList → S.grub_file_open path = some file →
      grubfm_add_menu_back S path pw = some w0 → file_ext S file ≥ 0 →
      ini_get (S.ext_config (file_ext S file).toNat) (toString 0) "menu" ≠ none →
      ini_get (S.ext_config (file_ext S file).toNat) (toString 0) "condition" = some c0 →
      (grubfm_ini_menu_check S c0 (open_file_boot S (file_ext S file) w0)).1 = 0 →
      ini_get (S.ext_config (file_ext S file).toNat) (toString 1) "menu" = none →
      ∃ back w3, is_back_entry S path back ∧ grubfm_open_file S path pw = some w3 ∧
        type_group S file w0 = [] ∧
        w3.menu = pw.menu ++ [back] ++ global_group S file w0 ∧
        ascending_sections S S.grubfm_ini_config 0 100 (global_group S file w0) := by
  have hskipped := section_skipped_of_check S ini i w c hreach hmenu hcond hcheck
  refine ⟨hskipped, ?_, ?_⟩
  · intro j hij hreachj hmenuj henj hpassj
    obtain ⟨w1, -, -, hb, hm, -⟩ := hskipped
    exact emitted_after_skip_intro S ini i j w w1 hij hreachj hb hm hmenuj henj hpassj
  intro path pw w0 file c0 hslash hopen hback hext hm0 hc0 hcheck0 hm1
  obtain ⟨w0a, back, w3, hback1, -, hisback, hopen3, hmenu3, -, -, hasc⟩ :=
    grubfm_open_file_spec S path pw file hslash hopen
  have hw0 : w0a = w0 := by
    rw [hback] at hback1
    exact (Option.some.inj hback1).symm
  subst hw0
  have hskip := section_skipped_of_check S (S.ext_config (file_ext S file).toNat) 0
    (open_file_boot S (file_ext S file) w0a) c0
    ⟨by omega, fun j hj => absurd hj (Nat.not_lt_zero j)⟩ hm0 hc0 hcheck0
  obtain ⟨w1, earlier, later, -, -, -, hfinal, hasc1, hasc2⟩ := hskip
  have he : earlier = [] := ascending_sections_empty S _ 0 earlier hasc1
  have hl : later = [] := ascending_sections_no_menu S _ 1 100 later hm1 hasc2
  have htype : type_group S file w0a = [] := by
    simp only [type_group, hext, if_true, emitted_by, hfinal, he, hl, List.append_nil,
      List.drop_length]
  refine ⟨back, w3, hisback, hopen3, htype, ?_, hasc⟩
  rw [hmenu3, htype, List.append_nil]

/-- Instance of C4: with the rule `check_uefi` false, section "0" is passed over, the
next section is still emitted, without a rule (`iso_cond_config`) and with a rule that
checks true (`two_rule_config`), and the resolver still emits the global entry. -/
theorem grubfm_condition_false_skips_witness :
    reaches iso_cond_config 0 ∧ ini_get iso_cond_config (toString 0) "menu" ≠ none ∧
    ini_get iso_cond_config (toString 0) "condition" = some "check_uefi" ∧
    (grubfm_ini_menu_check demo_sys_cond "check_uefi"
      (state_at demo_sys_cond iso_cond_config 0 demo_world)).1 = 0 ∧
    section_skipped demo_sys_cond iso_cond_config 0 demo_world ∧
    (grubfm_add_ini_menu demo_sys_cond iso_cond_config demo_world).menu.map MenuEntry.src =
      [some "configfile (hd0)/boot/grub/rules/mount_iso\n"] ∧
    (∃ back w3, is_back_entry demo_sys_cond "/a/b/c.iso" back ∧
      grubfm_open_file demo_sys_cond "/a/b/c.iso" demo_world = some w3 ∧
      type_group demo_sys_cond ⟨"/a/b/c.iso", 2048, 0⟩
        ⟨[], [⟨"Back", "go-previous", none, some "grubfm \"/a/b/\"", 0⟩], [], []⟩ = [] ∧
      w3.menu = demo_world.menu ++ [back] ++ global_group demo_sys_cond ⟨"/a/b/c.iso", 2048, 0⟩
        ⟨[], [⟨"Back", "go-previous", none, some "grubfm \"/a/b/\"", 0⟩], [], []⟩ ∧
      ascending_sections demo_sys_cond demo_sys_cond.grubfm_ini_config 0 100
        (global_group demo_sys_cond ⟨"/a/b/c.iso", 2048, 0⟩
          ⟨[], [⟨"Back", "go-previous", none, some "grubfm \"/a/b/\"", 0⟩], [], []⟩)) ∧
    (grubfm_open_file demo_sys_cond "/a/b/c.iso" demo_world).map
        (fun w3 => w3.menu.map MenuEntry.src) =
      some [some "grubfm \"/a/b/\"", some "configfile (hd0)/boot/grub/rules/reboot\n"] ∧
    (section_emitted demo_sys_cond iso_cond_config 1 demo_world ∧
      emitted_after_skip demo_sys_cond iso_cond_config 0 1 demo_world) ∧
    reaches two_rule_config 0 ∧ ini_get two_rule_config (toString 0) "menu" ≠ none ∧
    ini_get two_rule_config (toString 0) "condition" = some "check_uefi" ∧
    (grubfm_ini_menu_check demo_sys_rules "check_uefi"
      (state_at demo_sys_rules two_rule_config 0 demo_world)).1 = 0 ∧
    ini_get two_rule_config (toString 1) "condition" = some "check_any" ∧
    (grubfm_ini_menu_check demo_sys_rules "check_any"
      (state_at demo_sys_rules two_rule_config 1 demo_world)).1 = 1 ∧
    (section_emitted demo_sys_rules two_rule_config 1 demo_world ∧
      emitted_after_skip demo_sys_rules two_rule_config 0 1 demo_world) ∧
    (grubfm_add_ini_menu demo_sys_rules two_rule_config demo_world).menu.map MenuEntry.src =
      [some "configfile (hd0)/boot/grub/rules/mount_iso\n"] :=
  ⟨by decide, by decide, by decide, by decide,
    (grubfm_condition_false_skips demo_sys_cond iso_cond_config 0 demo_world "check_uefi"
      (by decide) (by decide) (by decide) (by decide)).1,
    by decide,
    (grubfm_condition_false_skips demo_sys_cond iso_cond_config 0 demo_world "check_uefi"
      (by decide) (by decide) (by decide) (by decide)).2.2 "/a/b/c.iso" demo_world
      ⟨[], [⟨"Back", "go-previous", none, some "grubfm \"/a/b/\"", 0⟩], [], []⟩
      ⟨"/a/b/c.iso", 2048, 0⟩ "check_uefi"
      (by decide) (by decide) (by decide) (by decide) (by decide) (by decide) (by decide)
      (by decide),
    by decide,
    (grubfm_condition_false_skips demo_sys_cond iso_cond_config 0 demo_world "check_uefi"
      (by decide) (by decide) (by decide) (by decide)).2.1 1 (by decide) (by decide)
      (by decide) (by decide)
      (fun cj hcj => absurd hcj (by
        have hnone : ini_get iso_cond_config (toString 1) "condition" = none := by decide
        rw [hnone]
        exact Option.noConfusion)),
    by decide, by decide, by decide, by decide, by decide, by decide,
    (grubfm_condition_false_skips demo_sys_rules two_rule_config 0 demo_world "check_uefi"
      (by decide) (by decide) (by decide) (by decide)).2.1 1 (by decide) (by decide)
      (by decide) (by decide)
      (fun cj hcj => by
        have hsome : ini_get two_rule_config (toString 1) "condition" = some "check_any" := by
          decide
        rw [hsome] at hcj
        rw [← Option.some.inj hcj]
        decide),
    by decide⟩

/-- C5. Whenever the script string is built, `grubfm_ini_menu_check` executes it and
then returns 0 if `grubfm_test` is absent or equal to "0", and 1 for every other value
the variable holds. -/
theorem grubfm_ini_menu_check_result (S : Sys) (condition : String) (w : World)
    (hbuilt : (grub_xasprintf (check_script S condition) w).1 ≠ none) :
    (grubfm_ini_menu_check S condition w).2.env = S.exec (check_script S condition) w.env ∧
    (grubfm_ini_menu_check S condition w).2.scripts = w.scripts ++ [check_script S condition] ∧
    (grub_env_get (grubfm_ini_menu_check S condition w).2.env "grubfm_test" = none ∨
      grub_env_get (grubfm_ini_menu_check S condition w).2.env "grubfm_test" = some "0" →
        (grubfm_ini_menu_check S condition w).1 = 0) ∧
    (∀ value, grub_env_get (grubfm_ini_menu_check S condition w).2.env "grubfm_test"
        = some value → value ≠ "0" → (grubfm_ini_menu_check S condition w).1 = 1) := by
  obtain ⟨-, hxe, hxs, hxr⟩ := grub_xasprintf_menu (check_script S condition) w
  have hsome : (grub_xasprintf (check_script S condition) w).1
      = some (check_script S condition) := by
    rcases hxr with h | h
    · exact absurd h hbuilt
    · exact h
  have hdef : grubfm_ini_menu_check S condition w =
      (match grub_xasprintf (check_script S condition) w with
      | (none, w1) => ((0 : Int), w1)
      | (some src, w1) =>
        match grub_env_get (grub_script_execute_sourcecode S src w1).env "grubfm_test" with
        | none => (0, grub_script_execute_sourcecode S src w1)
        | some value =>
          if value = "0" then (0, grub_script_execute_sourcecode S src w1)
          else (1, grub_script_execute_sourcecode S src w1)) := rfl
  rw [hdef]
  generalize grub_xasprintf (check_script S condition) w = r at hxe hxs hsome ⊢
  obtain ⟨o, w1⟩ := r
  simp only at hsome hxe hxs
  subst hsome
  simp only [grub_script_execute_sourcecode, hxe, hxs]
  cases hv : grub_env_get (S.exec (check_script S condition) w.env) "grubfm_test" with
  | none => simp [hv]
  | some value =>
    by_cases h0 : value = "0"
    · simp [hv, h0]
    · simp [hv, h0]

/-- Instance of C5: the values "yes", "00", "" and "false" give 1; "0" and an unset
variable give 0. -/
theorem grubfm_ini_menu_check_result_witness :
    (grub_xasprintf (check_script (demo_sys_value (some "yes")) "check_uefi") demo_world).1
      ≠ none ∧
    ((grubfm_ini_menu_check (demo_sys_value (some "yes")) "check_uefi" demo_world).2.env =
      (demo_sys_value (some "yes")).exec
        (check_script (demo_sys_value (some "yes")) "check_uefi") demo_world.env ∧
    (grubfm_ini_menu_check (demo_sys_value (some "yes")) "check_uefi" demo_world).2.scripts =
      demo_world.scripts ++ [check_script (demo_sys_value (some "yes")) "check_uefi"] ∧
    (grub_env_get (grubfm_ini_menu_check (demo_sys_value (some "yes")) "check_uefi"
        demo_world).2.env "grubfm_test" = none ∨
      grub_env_get (grubfm_ini_menu_check (demo_sys_value (some "yes")) "check_uefi"
        demo_world).2.env "grubfm_test" = some "0" →
        (grubfm_ini_menu_check (demo_sys_value (some "yes")) "check_uefi" demo_world).1 = 0) ∧
    (∀ value, grub_env_get (grubfm_ini_menu_check (demo_sys_value (some "yes")) "check_uefi"
        demo_world).2.env "grubfm_test" = some value → value ≠ "0" →
        (grubfm_ini_menu_check (demo_sys_value (some "yes")) "check_uefi" demo_world).1 = 1)) ∧
    (grubfm_ini_menu_check (demo_sys_value (some "yes")) "check_uefi" demo_world).1 = 1 ∧
    (grubfm_ini_menu_check (demo_sys_value (some "00")) "check_uefi" demo_world).1 = 1 ∧
    (grubfm_ini_menu_check (demo_sys_value (some "")) "check_uefi" demo_world).1 = 1 ∧
    (grubfm_ini_menu_check (demo_sys_value (some "false")) "check_uefi" demo_world).1 = 1 ∧
    (grubfm_ini_menu_check (demo_sys_value (some "0")) "check_uefi" demo_world).1 = 0 ∧
    (grubfm_ini_menu_check (demo_sys_value none) "check_uefi" demo_world).1 = 0 :=
  ⟨by decide,
    grubfm_ini_menu_check_result (demo_sys_value (some "yes")) "check_uefi" demo_world
      (by decide),
    by decide, by decide, by decide, by decide, by decide, by decide⟩

/-! ## Lemmas on the Back command -/

theorem grub_xasprintf_result (text : String) (w : World) :
    (w.allocs.head? ≠ some false → (grub_xasprintf text w).1 = some text) ∧
    (w.allocs.head? = some false → (grub_xasprintf text w).1 = none) := by
  unfold grub_xasprintf
  cases h : w.allocs with
  | nil => simp
  | cons ok rest => cases ok <;> simp

theorem ascending_sections_mem (S : Sys) (ini : ini_t) (lo hi : Nat) (es : List MenuEntry)
    (h : ascending_sections S ini lo hi es) (e : MenuEntry) (he : e ∈ es) :
    ∃ i, section_entry S ini i e := by
  obtain ⟨secs, -, -, hf⟩ := h
  induction hf with
  | nil => simp at he
  | cons hse _ ih =>
    rcases List.mem_cons.mp he with rfl | he1
    · exact ⟨_, hse⟩
    · exact ih he1

/-- For a path with a `/` the resolver returns, and its menu begins with the entry
`grubfm_add_menu_back` appends; when the file does not open nothing else happens. -/
theorem grubfm_open_file_first (S : Sys) (path : String) (w : World)
    (hslash : '/' ∈ path.toList) :
    ∃ w0 back w3 rest, grubfm_add_menu_back S path w = some w0 ∧
      w0.menu = w.menu ++ [back] ∧ is_back_entry S path back ∧
      (w.allocs.head? ≠ some false → back.src ≠ none) ∧
      (w.allocs.head? = some false → back.src = none) ∧
      w0.env = w.env ∧ w0.scripts = w.scripts ∧
      grubfm_open_file S path w = some w3 ∧ w3.menu = w.menu ++ back :: rest ∧
      (S.grub_file_open path = none → w3 = w0) ∧
      (∀ e ∈ rest, ∃ ini i, section_entry S ini i e) := by
  obtain ⟨i, hi⟩ := grub_strrchr_mem '/' path.toList hslash
  obtain ⟨w0, back, hback, hmenu0, hisback, henv, hscr⟩ :=
    grubfm_add_menu_back_spec S path w hslash
  have hsrc : (w.allocs.head? ≠ some false → back.src ≠ none) ∧
      (w.allocs.head? = some false → back.src = none) := by
    simp only [grubfm_add_menu_back, hi, Option.some.injEq] at hback
    have hm : w0.menu = w.menu ++ [back] := hmenu0
    rw [← hback] at hm
    obtain ⟨hxm, -, -, -⟩ :=
      grub_xasprintf_menu ("grubfm \"" ++ String.mk (path.toList.take i) ++ "/\"") w
    obtain ⟨hr1, hr2⟩ :=
      grub_xasprintf_result ("grubfm \"" ++ String.mk (path.toList.take i) ++ "/\"") w
    simp only [grubfm_add_menu, hxm] at hm
    have h1 := List.append_cancel_left hm
    simp only [List.cons.injEq, and_true] at h1
    rw [← h1]
    refine ⟨fun h => ?_, fun h => hr2 h⟩
    show (grub_xasprintf ("grubfm \"" ++ String.mk (path.toList.take i) ++ "/\"") w).1 ≠ none
    rw [hr1 h]
    exact Option.some_ne_none _
  cases hopen : S.grub_file_open path with
  | none =>
    refine ⟨w0, back, w0, [], hback, hmenu0, hisback, hsrc.1, hsrc.2, henv, hscr,
      by simp only [grubfm_open_file, hback, hopen], hmenu0, fun _ => rfl, by simp⟩
  | some file =>
    obtain ⟨w0a, backa, w3, hbacka, hmenu0a, -, hopen3, hmenu3, -, hasc1, hasc2⟩ :=
      grubfm_open_file_spec S path w file hslash hopen
    have hw0 : w0a = w0 := by
      rw [hback] at hbacka
      exact (Option.some.inj hbacka).symm
    subst hw0
    have hb : backa = back := by
      rw [hmenu0] at hmenu0a
      have h1 := List.append_cancel_left hmenu0a
      simp only [List.cons.injEq, and_true] at h1
      exact h1.symm
    subst hb
    refine ⟨w0a, backa, w3, type_group S file w0a ++ global_group S file w0a, hback, hmenu0,
      hisback, hsrc.1, hsrc.2, henv, hscr, hopen3, ?_, fun h => by simp at h, ?_⟩
    · rw [hmenu3]
      simp
    · intro e he
      rcases List.mem_append.mp he with h | h
      · obtain ⟨i, hi⟩ := ascending_sections_mem S _ 0 100 _ hasc1 e h
        exact ⟨_, i, hi⟩
      · obtain ⟨i, hi⟩ := ascending_sections_mem S _ 0 100 _ hasc2 e h
        exact ⟨_, i, hi⟩

theorem is_back_entry_slash (S : Sys) (path : String) (e : MenuEntry)
    (h : is_back_entry S path e) (hsrc : e.src ≠ none) : back_names_parent_slash path e := by
  obtain ⟨-, -, -, -, dir, base, hsplit, hbase, hs⟩ := h
  rcases hs with hs | hs
  · exact absurd hs hsrc
  · exact ⟨String.mk dir, ⟨base, hsplit, hbase⟩, hs⟩

theorem quoted_convention_back (dir : String) :
    quoted_convention ("grubfm \"" ++ dir ++ "/\"") := by
  refine ⟨"grubfm", dir ++ "/", by decide, by decide, ?_⟩
  apply String.ext
  simp [String.data_append]

theorem not_quoted_convention_newline (s : String) : ¬ quoted_convention (s ++ "\n") := by
  rintro ⟨cmd, arg, -, -, h⟩
  have h1 := congrArg (fun t => t.data.reverse) h
  simp at h1

theorem open_file_boot_scripts (S : Sys) (ext : Int) (w : World) (src : String)
    (h : src ∈ (open_file_boot S ext w).scripts) :
    src ∈ w.scripts ∨ ∃ boot_script, src = source_cmd S boot_script := by
  unfold open_file_boot at h
  split at h
  · split at h
    · exact Or.inl h
    · rename_i boot_script _
      obtain ⟨-, -, hxs, hxr⟩ := grub_xasprintf_menu (source_cmd S boot_script) w
      change src ∈ (match grub_xasprintf (source_cmd S boot_script) w with
        | (none, w1) => w1
        | (some src, w1) => grub_script_execute_sourcecode S src w1).scripts at h
      generalize grub_xasprintf (source_cmd S boot_script) w = r at hxs hxr h
      obtain ⟨o, w1⟩ := r
      simp only at hxs hxr
      cases o with
      | none =>
        simp only at h
        rw [hxs] at h
        exact Or.inl h
      | some t =>
        simp only [grub_script_execute_sourcecode, hxs, List.mem_append,
          List.mem_singleton] at h
        rcases h with h | h
        · exact Or.inl h
        · right
          rcases hxr with hx | hx
          · simp at hx
          · exact ⟨boot_script, by rw [h]; exact Option.some.inj hx⟩
  · exact Or.inl h

/-- C6, as stated, fails: for `/a/b/c.iso` the first entry is the Back entry and its
command is `grubfm "/a/b/"`, so the text inside the quotes is not the path truncated at
its last `/`, which is `/a/b`. -/
theorem back_names_parent_counterexample :
    ∃ w3 e, grubfm_open_file demo_sys "/a/b/c.iso" demo_world = some w3 ∧
      w3.menu.head? = some e ∧ e.src = some "grubfm \"/a/b/\"" ∧
      truncated_at_last_slash "/a/b/c.iso" "/a/b" ∧ ¬ back_names_parent "/a/b/c.iso" e := by
  refine ⟨⟨[], [⟨"Back", "go-previous", none, some "grubfm \"/a/b/\"", 0⟩,
      ⟨"MENU", "file", none, some "configfile (hd0)/boot/grub/rules/boot_iso\n", 0⟩,
      ⟨"MENU", "file", none, some "configfile (hd0)/boot/grub/rules/reboot\n", 0⟩], [], []⟩,
    ⟨"Back", "go-previous", none, some "grubfm \"/a/b/\"", 0⟩, by decide, rfl, rfl,
    ⟨"c.iso".toList, by decide, by decide⟩, ?_⟩
  rintro ⟨dir, ⟨base, hsplit, -⟩, hsrc⟩
  have h1 := congrArg String.data (Option.some.inj hsrc)
  simp at h1
  have h2 : ['/', 'a', '/', 'b', '/'] ++ ['\"'] = dir.data ++ ['\"'] := h1
  have h3 := List.append_cancel_right h2
  have h4 : dir.toList = ['/', 'a', '/', 'b', '/'] := h3.symm
  rw [h4] at hsplit
  simp at hsplit

/-- C6, amended. For every path with a `/`, the first entry `grubfm_open_file` emits is
the Back entry; when its command string is allocated the command is `grubfm "<dir>/"`,
with `<dir>` the path truncated at its last `/`, and when the allocation fails the entry
has no command. -/
theorem grubfm_back_entry_target (S : Sys) (path : String) (w : World)
    (hslash : '/' ∈ path.toList) :
    ∃ w3 back rest, grubfm_open_file S path w = some w3 ∧ w3.menu = w.menu ++ back :: rest ∧
      back.title = S.gettext "Back" ∧ back.icon = "go-previous" ∧ back.hotkey = none ∧
      back.hidden = 0 ∧
      (w.allocs.head? ≠ some false → back_names_parent_slash path back) ∧
      (w.allocs.head? = some false → back.src = none) := by
  obtain ⟨w0, back, w3, rest, -, -, hisback, hs1, hs2, -, -, hopen, hmenu, -, -⟩ :=
    grubfm_open_file_first S path w hslash
  exact ⟨w3, back, rest, hopen, hmenu, hisback.1, hisback.2.1, hisback.2.2.1, hisback.2.2.2.1,
    fun h => is_back_entry_slash S path back hisback (hs1 h), hs2⟩

/-- Instance of the amended C6 on `/a/b/c.iso`. -/
theorem grubfm_back_entry_target_witness :
    '/' ∈ "/a/b/c.iso".toList ∧
    ∃ w3 back rest, grubfm_open_file demo_sys "/a/b/c.iso" demo_world = some w3 ∧
      w3.menu = demo_world.menu ++ back :: rest ∧
      back.title = demo_sys.gettext "Back" ∧ back.icon = "go-previous" ∧ back.hotkey = none ∧
      back.hidden = 0 ∧
      (demo_world.allocs.head? ≠ some false → back_names_parent_slash "/a/b/c.iso" back) ∧
      (demo_world.allocs.head? = some false → back.src = none) :=
  ⟨by decide, grubfm_back_entry_target demo_sys "/a/b/c.iso" demo_world (by decide)⟩

/-- C7. For every path with a `/` whose open fails, `grubfm_open_file` returns after
emitting exactly one entry, the Back entry; no script is executed and the environment
is as before. -/
theorem grubfm_open_file_open_fails (S : Sys) (path : String) (w : World)
    (hslash : '/' ∈ path.toList) (hopen : S.grub_file_open path = none) :
    ∃ w3 back, grubfm_open_file S path w = some w3 ∧ w3.menu = w.menu ++ [back] ∧
      is_back_entry S path back ∧ w3.scripts = w.scripts ∧ w3.env = w.env := by
  obtain ⟨w0, back, w3, rest, -, hmenu0, hisback, -, -, henv, hscr, hopen3, -, hfail, -⟩ :=
    grubfm_open_file_first S path w hslash
  have h3 : w3 = w0 := hfail hopen
  subst h3
  exact ⟨w3, back, hopen3, hmenu0, hisback, hscr, henv⟩

/-- Instance of C7: `/a/b/none` does not open and only the Back entry is emitted. -/
theorem grubfm_open_file_open_fails_witness :
    '/' ∈ "/a/b/none".toList ∧ demo_sys.grub_file_open "/a/b/none" = none ∧
    (∃ w3 back, grubfm_open_file demo_sys "/a/b/none" demo_world = some w3 ∧
      w3.menu = demo_world.menu ++ [back] ∧
      is_back_entry demo_sys "/a/b/none" back ∧ w3.scripts = demo_world.scripts ∧
      w3.env = demo_world.env) ∧
    grubfm_open_file demo_sys "/a/b/none" demo_world =
      some ⟨[], [⟨"Back", "go-previous", none, some "grubfm \"/a/b/\"", 0⟩], [], []⟩ :=
  ⟨by decide, by decide,
    grubfm_open_file_open_fails demo_sys "/a/b/none" demo_world (by decide) (by decide),
    by decide⟩

/-- C10, as stated, fails: for `/a/b/c.iso` the entry of the `.iso` section is emitted
with the command `configfile (hd0)/boot/grub/rules/boot_iso` and a newline, which has
no double quotes around its argument. -/
theorem quoted_convention_counterexample :
    ∃ w3 e cmd, grubfm_open_file demo_sys "/a/b/c.iso" demo_world = some w3 ∧ e ∈ w3.menu ∧
      e.src = some cmd ∧ cmd = "configfile (hd0)/boot/grub/rules/boot_iso\n" ∧
      ¬ quoted_convention cmd := by
  refine ⟨⟨[], [⟨"Back", "go-previous", none, some "grubfm \"/a/b/\"", 0⟩,
      ⟨"MENU", "file", none, some "configfile (hd0)/boot/grub/rules/boot_iso\n", 0⟩,
      ⟨"MENU", "file", none, some "configfile (hd0)/boot/grub/rules/reboot\n", 0⟩], [], []⟩,
    ⟨"MENU", "file", none, some "configfile (hd0)/boot/grub/rules/boot_iso\n", 0⟩,
    "configfile (hd0)/boot/grub/rules/boot_iso\n", by decide, by decide, rfl, rfl, ?_⟩
  exact not_quoted_convention_newline "configfile (hd0)/boot/grub/rules/boot_iso"

/-- C10, amended. Of the command strings the resolver builds for a path with a `/`, the
Back entry's command follows the convention `cmd "arg"`; the command of every other
emitted entry is `configfile (<root>)/boot/grub/rules/<menu>` and the auto-boot command
is `source (<root>)/boot/grub/rules/<boot>`, each ended by a newline: a command word,
one space and the argument without quotes. -/
theorem grubfm_command_forms (S : Sys) (path : String) (w : World)
    (hslash : '/' ∈ path.toList) :
    ∃ w0 w3 back rest, grubfm_add_menu_back S path w = some w0 ∧
      grubfm_open_file S path w = some w3 ∧ w3.menu = w.menu ++ back :: rest ∧
      (∀ cmd, back.src = some cmd → quoted_convention cmd) ∧
      (∀ e ∈ rest, ∀ cmd, e.src = some cmd →
        (∃ script, cmd = configfile_cmd S script) ∧ ¬ quoted_convention cmd) ∧
      (∀ ext cmd, cmd ∈ (open_file_boot S ext w0).scripts →
        cmd ∈ w0.scripts ∨ ((∃ boot_script, cmd = source_cmd S boot_script) ∧
          ¬ quoted_convention cmd)) := by
  obtain ⟨w0, back, w3, rest, hback, -, hisback, -, -, -, -, hopen, hmenu, -, hrest⟩ :=
    grubfm_open_file_first S path w hslash
  refine ⟨w0, w3, back, rest, hback, hopen, hmenu, ?_, ?_, ?_⟩
  · intro cmd hcmd
    obtain ⟨-, -, -, -, dir, base, -, -, hs⟩ := hisback
    rcases hs with hs | hs
    · rw [hs] at hcmd; exact absurd hcmd (by simp)
    · rw [hs] at hcmd
      rw [← Option.some.inj hcmd]
      exact quoted_convention_back (String.mk dir)
  · intro e he cmd hcmd
    obtain ⟨ini, i, script, -, -, -, -, -, hs⟩ := hrest e he
    rcases hs with hs | hs
    · rw [hs] at hcmd; exact absurd hcmd (by simp)
    · rw [hs] at hcmd
      rw [← Option.some.inj hcmd]
      exact ⟨⟨script, rfl⟩, not_quoted_convention_newline _⟩
  · intro ext cmd hcmd
    rcases open_file_boot_scripts S ext w0 cmd hcmd with h | ⟨boot_script, h⟩
    · exact Or.inl h
    · right
      refine ⟨⟨boot_script, h⟩, ?_⟩
      rw [h]
      exact not_quoted_convention_newline _

/-- Instance of the amended C10 with auto-boot switched on: the `source` line is
executed and the entries carry a quoted `grubfm` and unquoted `configfile` lines. -/
theorem grubfm_command_forms_witness :
    '/' ∈ "/a/b/c.iso".toList ∧
    (∃ w0 w3 back rest,
      grubfm_add_menu_back demo_sys_boot "/a/b/c.iso" demo_world = some w0 ∧
      grubfm_open_file demo_sys_boot "/a/b/c.iso" demo_world = some w3 ∧
      w3.menu = demo_world.menu ++ back :: rest ∧
      (∀ cmd, back.src = some cmd → quoted_convention cmd) ∧
      (∀ e ∈ rest, ∀ cmd, e.src = some cmd →
        (∃ script, cmd = configfile_cmd demo_sys_boot script) ∧ ¬ quoted_convention cmd) ∧
      (∀ ext cmd, cmd ∈ (open_file_boot demo_sys_boot ext w0).scripts →
        cmd ∈ w0.scripts ∨ ((∃ boot_script, cmd = source_cmd demo_sys_boot boot_script) ∧
          ¬ quoted_convention cmd))) ∧
    (grubfm_open_file demo_sys_boot "/a/b/c.iso" demo_world).map
        (fun w3 => (w3.scripts, w3.menu.map MenuEntry.src)) =
      some (["source (hd0)/boot/grub/rules/iso_auto\n"],
        [some "grubfm \"/a/b/\"", some "configfile (hd0)/boot/grub/rules/boot_iso\n",
          some "configfile (hd0)/boot/grub/rules/reboot\n"]) :=
  ⟨by decide, grubfm_command_forms demo_sys_boot "/a/b/c.iso" demo_world (by decide),
    by decide⟩

/-! ## Lemmas on the pager -/

theorem page_skip_same_file (T : TextSys) :
    ∀ (n : Nat) (f : grub_file),
      (page_skip T n f).1.name = f.name ∧ (page_skip T n f).1.size = f.size := by
  intro n
  induction n with
  | zero => intro f; exact ⟨rfl, rfl⟩
  | succ n ih =>
    intro f
    unfold page_skip
    split
    · exact ⟨rfl, rfl⟩
    · exact ih _

theorem page_skip_at_eof (T : TextSys) (f : grub_file) (h : grubfm_textcat_eof f = true) :
    ∀ n, (page_skip T n f).1 = f := by
  intro n
  cases n with
  | zero => rfl
  | succ n => simp [page_skip, h]

theorem page_skip_flag (T : TextSys) :
    ∀ (n : Nat) (f : grub_file), (page_skip T n f).2 = true →
      grubfm_textcat_eof (page_skip T n f).1 = true := by
  intro n
  induction n with
  | zero => intro f h; simp [page_skip] at h
  | succ n ih =>
    intro f h
    unfold page_skip at h ⊢
    by_cases he : grubfm_textcat_eof f = true
    · simp [he]
    · simp only [he] at h ⊢
      exact ih _ h

theorem page_skip_add (T : TextSys) :
    ∀ (a b : Nat) (f : grub_file),
      (page_skip T (a + b) f).1 = (page_skip T b (page_skip T a f).1).1 := by
  intro a
  induction a with
  | zero => intro b f; simp [page_skip]
  | succ a ih =>
    intro b f
    have e : a + 1 + b = (a + b) + 1 := by omega
    rw [e]
    by_cases he : grubfm_textcat_eof f = true
    · simp only [page_skip, he, if_true]
      exact (page_skip_at_eof T f he b).symm
    · simp only [page_skip, he]
      exact ih b _

theorem page_rows_file (T : TextSys) (from_line y : Nat) :
    ∀ (n i : Nat) (f : grub_file),
      (page_rows T from_line y n i f).1 = (page_skip T n f).1 := by
  intro n
  induction n with
  | zero => intro i f; rfl
  | succ n ih =>
    intro i f
    unfold page_rows page_skip
    by_cases he : grubfm_textcat_eof f = true
    · simp [he]
    · simp only [he]
      exact ih (i + 1) _

/-- The handle after a page is the handle after skipping `from + count` lines. -/
theorem grubfm_textcat_page_file (T : TextSys) (file : grub_file) (from_line count y : Nat) :
    (grubfm_textcat_page T file from_line count y).1 =
      (page_skip T (from_line + count) { file with offset := 0 }).1 := by
  rw [page_skip_add]
  unfold grubfm_textcat_page
  have hflag := page_skip_flag T from_line { file with offset := 0 }
  generalize page_skip T from_line { file with offset := 0 } = r at hflag ⊢
  obtain ⟨f1, b⟩ := r
  cases b with
  | true => exact (page_skip_at_eof T f1 (hflag rfl) count).symm
  | false => exact page_rows_file T from_line y count 0 f1

theorem bytes_remain_after_mono (T : TextSys) (file : grub_file) (m n : Nat) (hmn : m ≤ n)
    (h : bytes_remain_after T file n) : bytes_remain_after T file m := by
  unfold bytes_remain_after at h ⊢
  by_contra hm
  have hsame := page_skip_same_file T m { file with offset := 0 }
  have he : grubfm_textcat_eof (page_skip T m { file with offset := 0 }).1 = true := by
    simp only [grubfm_textcat_eof, decide_eq_true_eq, hsame.2]
    show file.size ≤ _
    omega
  have e : n = m + (n - m) := by omega
  rw [e, page_skip_add, page_skip_at_eof T _ he] at h
  exact hm h

/-- Page-up in `grub_size_t` arithmetic is truncated subtraction: no wrap-around. -/
theorem textcat_key_up (T : TextSys) (f : grub_file) (key : Int) (line_num : Nat)
    (hfit : line_num < 2 ^ T.size_bits) (hesc : key ≠ T.GRUB_TERM_ESC)
    (hdown : key ≠ T.GRUB_TERM_KEY_DOWN) (hup : key = T.GRUB_TERM_KEY_UP) :
    textcat_key T f key line_num = some (line_num - CAT_LINE_NUM) := by
  subst hup
  unfold textcat_key
  rw [if_neg hesc, if_neg hdown, if_pos rfl]
  have hc : CAT_LINE_NUM = 36 := rfl
  rw [hc]
  generalize 2 ^ T.size_bits = M at hfit ⊢
  by_cases hlt : line_num < 36
  · rw [if_pos hlt]
    have : line_num - 36 = 0 := by omega
    rw [this]
  · rw [if_neg hlt]
    have e : line_num + M - 36 = (line_num - 36) + M := by omega
    rw [e, Nat.add_mod_right, Nat.mod_eq_of_lt (by omega)]

theorem textcat_key_down (T : TextSys) (f : grub_file) (key : Int) (line_num : Nat)
    (hesc : key ≠ T.GRUB_TERM_ESC) (hdown : key = T.GRUB_TERM_KEY_DOWN) :
    textcat_key T f key line_num =
      some (if grubfm_textcat_eof f then line_num
        else (line_num + CAT_LINE_NUM) % 2 ^ T.size_bits) := by
  subst hdown
  unfold textcat_key
  rw [if_neg hesc, if_pos rfl]
  by_cases he : grubfm_textcat_eof f = true
  · simp [he]
  · simp [he]

/-- The value `line_num` takes after a key keeps the invariant. -/
theorem textcat_key_inv (T : TextSys) (file : grub_file) (key : Int) (line_num n1 : Nat)
    (hfit : line_num < 2 ^ T.size_bits)
    (hin : line_num = 0 ∨ bytes_remain_after T file line_num)
    (hk : textcat_key T
      (page_skip T (line_num + CAT_LINE_NUM) { file with offset := 0 }).1 key line_num
        = some n1) :
    n1 < 2 ^ T.size_bits ∧ (n1 = 0 ∨ bytes_remain_after T file n1) := by
  have hpos : 0 < 2 ^ T.size_bits := pow_pos (by norm_num) _
  by_cases hesc : key = T.GRUB_TERM_ESC
  · simp [textcat_key, hesc] at hk
  by_cases hdown : key = T.GRUB_TERM_KEY_DOWN
  · rw [textcat_key_down T _ key line_num hesc hdown] at hk
    have hk1 := Option.some.inj hk
    by_cases he : grubfm_textcat_eof
        (page_skip T (line_num + CAT_LINE_NUM) { file with offset := 0 }).1 = true
    · simp only [he, if_true] at hk1
      subst hk1
      exact ⟨hfit, hin⟩
    · simp only [he] at hk1
      subst hk1
      refine ⟨Nat.mod_lt _ hpos, Or.inr ?_⟩
      have hfull : bytes_remain_after T file (line_num + CAT_LINE_NUM) := by
        unfold bytes_remain_after
        have hsame := page_skip_same_file T (line_num + CAT_LINE_NUM) { file with offset := 0 }
        simp only [grubfm_textcat_eof, decide_eq_true_eq, hsame.2] at he
        have : ¬ file.size ≤ (page_skip T (line_num + CAT_LINE_NUM)
            { file with offset := 0 }).1.offset := he
        omega
      exact bytes_remain_after_mono T file _ _ (Nat.mod_le _ _) hfull
  by_cases hup : key = T.GRUB_TERM_KEY_UP
  · rw [textcat_key_up T _ key line_num hfit hesc hdown hup] at hk
    have hk1 := Option.some.inj hk
    subst hk1
    refine ⟨by omega, ?_⟩
    rcases hin with h0 | hb
    · left; omega
    · exact Or.inr (bytes_remain_after_mono T file _ _ (Nat.sub_le _ _) hb)
  · simp only [textcat_key, hesc, hdown, hup, if_false, Option.some.injEq] at hk
    subst hk
    exact ⟨hfit, hin⟩

theorem textcat_pass_inv (T : TextSys) (filename : String) (h : Nat) (file : grub_file)
    (p p1 : Pager) (hinv : pager_inv T file p)
    (hpass : textcat_pass T filename h p = Pass.next p1) : pager_inv T file p1 := by
  obtain ⟨hname, hsize, hfit, hin⟩ := hinv
  have hf0 : ({ p.file with offset := 0 } : grub_file) = { file with offset := 0 } := by
    show (⟨p.file.name, p.file.size, 0⟩ : grub_file) = ⟨file.name, file.size, 0⟩
    rw [hname, hsize]
  have hpage : (grubfm_textcat_page T p.file p.line_num CAT_LINE_NUM (2 * T.FONT_SPACE)).1 =
      (page_skip T (p.line_num + CAT_LINE_NUM) { file with offset := 0 }).1 := by
    rw [grubfm_textcat_page_file, hf0]
  have hsame := page_skip_same_file T (p.line_num + CAT_LINE_NUM) { file with offset := 0 }
  unfold textcat_pass at hpass
  simp only [hpage] at hpass
  cases hw : wait_key T 0 p.keys with
  | none => simp [hw] at hpass
  | some kk =>
    obtain ⟨key, ks⟩ := kk
    simp only [hw] at hpass
    cases hk : textcat_key T (page_skip T (p.line_num + CAT_LINE_NUM)
        { file with offset := 0 }).1 key p.line_num with
    | none => simp [hk] at hpass
    | some n1 =>
      simp only [hk, Pass.next.injEq] at hpass
      subst hpass
      obtain ⟨h1, h2⟩ := textcat_key_inv T file key p.line_num n1 hfit hin hk
      exact ⟨hsame.1, hsame.2, h1, h2⟩

theorem loop_head_inv (T : TextSys) (filename : String) (h : Nat) (file : grub_file) :
    ∀ (n : Nat) (p q : Pager), pager_inv T file p → loop_head T filename h n p = some q →
      pager_inv T file q := by
  intro n
  induction n with
  | zero =>
    intro p q hinv hq
    simp only [loop_head, Option.some.injEq] at hq
    subst hq
    exact hinv
  | succ n ih =>
    intro p q hinv hq
    unfold loop_head at hq
    cases hp : textcat_pass T filename h p with
    | next p1 =>
      simp only [hp] at hq
      exact ih p1 q (textcat_pass_inv T filename h file p p1 hinv hp) hq
    | exit p1 => simp [hp] at hq
    | blocked p1 => simp [hp] at hq

/-- The states `loop_head` lists are those the loop of `grubfm_textcat` goes through. -/
theorem textcat_loop_from_head (T : TextSys) (filename : String) (h : Nat)
    (console : List (String × String)) :
    ∀ (n m : Nat) (p q : Pager), loop_head T filename h n p = some q →
      textcat_loop T filename h console (n + m) p = textcat_loop T filename h console m q := by
  intro n
  induction n with
  | zero =>
    intro m p q hq
    simp only [loop_head, Option.some.injEq] at hq
    subst hq
    simp
  | succ n ih =>
    intro m p q hq
    unfold loop_head at hq
    have e : n + 1 + m = (n + m) + 1 := by omega
    rw [e]
    cases hp : textcat_pass T filename h p with
    | next p1 =>
      simp only [hp] at hq
      simp only [textcat_loop, hp]
      exact ih m p1 q hq
    | exit p1 => simp [hp] at hq
    | blocked p1 => simp [hp] at hq

/-- C8. In every state the loop of `grubfm_textcat` reaches, for every file and every
sequence of key presses, `line_num` is 0 or leaves at least one byte of the file after
`line_num` lines are skipped from the start; page-up yields the truncated difference
`line_num - 36` (0 from an offset below 36, no wrap-around), and page-down adds 36 only
when the end-of-file probe on the handle after the render is false. -/
theorem grubfm_textcat_line_num_inside (T : TextSys) (filename : String) (h : Nat)
    (file : grub_file) (keys : List Int) (n : Nat) (p : Pager)
    (hreach : loop_head T filename h n ⟨file, 0, keys, []⟩ = some p) :
    (p.line_num = 0 ∨ bytes_remain_after T file p.line_num) ∧
    (∀ (f : grub_file) (key : Int), key ≠ T.GRUB_TERM_ESC → key ≠ T.GRUB_TERM_KEY_DOWN →
      key = T.GRUB_TERM_KEY_UP →
      textcat_key T f key p.line_num = some (p.line_num - CAT_LINE_NUM)) ∧
    (∀ (f : grub_file) (key : Int), key ≠ T.GRUB_TERM_ESC → key = T.GRUB_TERM_KEY_DOWN →
      textcat_key T f key p.line_num =
        some (if grubfm_textcat_eof f then p.line_num
          else (p.line_num + CAT_LINE_NUM) % 2 ^ T.size_bits)) := by
  have hinit : pager_inv T file ⟨file, 0, keys, []⟩ :=
    ⟨rfl, rfl, pow_pos (by norm_num) _, Or.inl rfl⟩
  obtain ⟨-, -, hfit, hin⟩ := loop_head_inv T filename h file n _ p hinit hreach
  exact ⟨hin, fun f key h1 h2 h3 => textcat_key_up T f key p.line_num hfit h1 h2 h3,
    fun f key h1 h2 => textcat_key_down T f key p.line_num h1 h2⟩

/-- Instance of C8: after two page-downs on the 40-line file `line_num` is 36. -/
theorem grubfm_textcat_line_num_inside_witness :
    ∃ p, loop_head demo_text "/notes" 768 2
        ⟨⟨"/notes", 80, 0⟩, 0, [8388688, 8388688, 8388680, 27], []⟩ = some p ∧
      p.line_num = 36 ∧
      ((p.line_num = 0 ∨ bytes_remain_after demo_text ⟨"/notes", 80, 0⟩ p.line_num) ∧
      (∀ (f : grub_file) (key : Int), key ≠ demo_text.GRUB_TERM_ESC →
        key ≠ demo_text.GRUB_TERM_KEY_DOWN → key = demo_text.GRUB_TERM_KEY_UP →
        textcat_key demo_text f key p.line_num = some (p.line_num - CAT_LINE_NUM)) ∧
      (∀ (f : grub_file) (key : Int), key ≠ demo_text.GRUB_TERM_ESC →
        key = demo_text.GRUB_TERM_KEY_DOWN →
        textcat_key demo_text f key p.line_num =
          some (if grubfm_textcat_eof f then p.line_num
            else (p.line_num + CAT_LINE_NUM) % 2 ^ demo_text.size_bits))) := by
  have hline : (loop_head demo_text "/notes" 768 2
      ⟨⟨"/notes", 80, 0⟩, 0, [8388688, 8388688, 8388680, 27], []⟩).map Pager.line_num
        = some 36 := by decide
  cases hp : loop_head demo_text "/notes" 768 2
      ⟨⟨"/notes", 80, 0⟩, 0, [8388688, 8388688, 8388680, 27], []⟩ with
  | none => simp [hp] at hline
  | some p =>
    refine ⟨p, rfl, ?_, grubfm_textcat_line_num_inside demo_text "/notes" 768
      ⟨"/notes", 80, 0⟩ [8388688, 8388688, 8388680, 27] 2 p hp⟩
    simpa [hp] using hline

theorem textcat_pass_screen (T : TextSys) (filename : String) (h : Nat) (p : Pager) :
    ∃ p1 rest, (textcat_pass T filename h p = Pass.next p1 ∨
        textcat_pass T filename h p = Pass.exit p1 ∨
        textcat_pass T filename h p = Pass.blocked p1) ∧
      p1.screen = p.screen ++ Draw.clear :: rest := by
  unfold textcat_pass
  cases wait_key T 0 p.keys with
  | none =>
    exact ⟨_, Draw.printf 0 T.FONT_SPACE (header_text T filename p.file) ::
      ((grubfm_textcat_page T p.file p.line_num CAT_LINE_NUM (2 * T.FONT_SPACE)).2 ++
        [Draw.printf 0 (h - 4) footer_text]), Or.inr (Or.inr rfl), by simp⟩
  | some kk =>
    obtain ⟨key, ks⟩ := kk
    simp only
    cases textcat_key T (grubfm_textcat_page T p.file p.line_num CAT_LINE_NUM
        (2 * T.FONT_SPACE)).1 key p.line_num with
    | none =>
      exact ⟨_, Draw.printf 0 T.FONT_SPACE (header_text T filename p.file) ::
        ((grubfm_textcat_page T p.file p.line_num CAT_LINE_NUM (2 * T.FONT_SPACE)).2 ++
          [Draw.printf 0 (h - 4) footer_text]), Or.inr (Or.inl rfl), by simp⟩
    | some n1 =>
      exact ⟨_, Draw.printf 0 T.FONT_SPACE (header_text T filename p.file) ::
        ((grubfm_textcat_page T p.file p.line_num CAT_LINE_NUM (2 * T.FONT_SPACE)).2 ++
          [Draw.printf 0 (h - 4) footer_text]), Or.inl rfl, by simp⟩

theorem textcat_loop_screen (T : TextSys) (filename : String) (h : Nat)
    (console : List (String × String)) :
    ∀ (fuel : Nat) (p : Pager),
      ∃ rest, (textcat_loop T filename h console fuel p).screen = p.screen ++ rest ∧
        (0 < fuel → ∃ more, rest = Draw.clear :: more) := by
  intro fuel
  induction fuel with
  | zero => intro p; exact ⟨[], by simp [textcat_loop], fun hf => absurd hf (by omega)⟩
  | succ fuel ih =>
    intro p
    obtain ⟨p1, rest, hcase, hscreen⟩ := textcat_pass_screen T filename h p
    rcases hcase with hc | hc | hc
    · obtain ⟨rest1, h1, -⟩ := ih p1
      refine ⟨Draw.clear :: rest ++ rest1, ?_, fun _ => ⟨rest ++ rest1, rfl⟩⟩
      simp only [textcat_loop, hc, h1, hscreen]
      simp
    · exact ⟨Draw.clear :: rest, by simp only [textcat_loop, hc, hscreen],
        fun _ => ⟨rest, rfl⟩⟩
    · exact ⟨Draw.clear :: rest, by simp only [textcat_loop, hc, hscreen],
        fun _ => ⟨rest, rfl⟩⟩

/-- C9. On a viewport of at least 1024x768 and for a file that opens, `grubfm_textcat`
draws (starting with the clear of the first render) if and only if the file is at most
1 MiB or the first key is 121. A file of at most 1 MiB enters the loop with every key
unread and nothing printed; a larger file with first key 121 enters the loop with the
keys after it; a larger file with any other first key returns with nothing drawn, having
read that one key. -/
theorem grubfm_textcat_large_file_gate (T : TextSys) (filename : String) (file : grub_file)
    (keys : List Int) (fuel : Nat)
    (hview : ¬ (T.screen_info.1 < 1024 ∨ T.screen_info.2 < 768))
    (hopen : T.grub_file_open filename = some file) (hfuel : 0 < fuel) :
    ((grubfm_textcat T filename keys fuel).screen ≠ [] ↔
      (file.size ≤ SIZE_1MB ∨ keys.head? = some 121)) ∧
    ((grubfm_textcat T filename keys fuel).screen ≠ [] →
      (grubfm_textcat T filename keys fuel).screen.head? = some Draw.clear) ∧
    (file.size ≤ SIZE_1MB → grubfm_textcat T filename keys fuel =
      textcat_loop T filename T.screen_info.2 [] fuel ⟨file, 0, keys, []⟩) ∧
    (SIZE_1MB < file.size → ∀ ks, keys = 121 :: ks → grubfm_textcat T filename keys fuel =
      textcat_loop T filename T.screen_info.2 [(T.gettext prompt_format, file.name)] fuel
        ⟨file, 0, ks, []⟩) ∧
    (SIZE_1MB < file.size → ∀ key ks, keys = key :: ks → key ≠ 121 →
      grubfm_textcat T filename keys fuel =
        ⟨Status.aborted, [], [(T.gettext prompt_format, file.name)], ks, 0⟩) ∧
    (SIZE_1MB < file.size → keys = [] →
      grubfm_textcat T filename keys fuel =
        ⟨Status.waiting, [], [(T.gettext prompt_format, file.name)], [], 0⟩) := by
  have hloop : ∀ console ks, ∃ more,
      (textcat_loop T filename T.screen_info.2 console fuel ⟨file, 0, ks, []⟩).screen
        = Draw.clear :: more := by
    intro console ks
    obtain ⟨rest, h1, h2⟩ := textcat_loop_screen T filename T.screen_info.2 console fuel
      ⟨file, 0, ks, []⟩
    obtain ⟨more, hm⟩ := h2 hfuel
    exact ⟨more, by rw [h1, hm]; rfl⟩
  have hsmall : file.size ≤ SIZE_1MB → grubfm_textcat T filename keys fuel =
      textcat_loop T filename T.screen_info.2 [] fuel ⟨file, 0, keys, []⟩ := by
    intro hs
    have : ¬ file.size > SIZE_1MB := by omega
    simp only [grubfm_textcat, hview, if_false, hopen, this]
  have hyes : SIZE_1MB < file.size → ∀ ks, keys = 121 :: ks →
      grubfm_textcat T filename keys fuel =
      textcat_loop T filename T.screen_info.2 [(T.gettext prompt_format, file.name)] fuel
        ⟨file, 0, ks, []⟩ := by
    intro hs ks hk
    have : file.size > SIZE_1MB := hs
    simp [grubfm_textcat, hview, hopen, this, hk]
  have hno : SIZE_1MB < file.size → ∀ key ks, keys = key :: ks → key ≠ 121 →
      grubfm_textcat T filename keys fuel =
        ⟨Status.aborted, [], [(T.gettext prompt_format, file.name)], ks, 0⟩ := by
    intro hs key ks hk hne
    have : file.size > SIZE_1MB := hs
    simp [grubfm_textcat, hview, hopen, this, hk, hne]
  have hnone : SIZE_1MB < file.size → keys = [] →
      grubfm_textcat T filename keys fuel =
        ⟨Status.waiting, [], [(T.gettext prompt_format, file.name)], [], 0⟩ := by
    intro hs hk
    have : file.size > SIZE_1MB := hs
    simp [grubfm_textcat, hview, hopen, this, hk]
  have hdraw : (file.size ≤ SIZE_1MB ∨ keys.head? = some 121) →
      ∃ more, (grubfm_textcat T filename keys fuel).screen = Draw.clear :: more := by
    intro h
    by_cases hs : file.size ≤ SIZE_1MB
    · rw [hsmall hs]; exact hloop _ _
    · have hk : keys.head? = some 121 := by
        rcases h with h | h
        · exact absurd h hs
        · exact h
      cases hkeys : keys with
      | nil => simp [hkeys] at hk
      | cons key ks =>
        simp only [hkeys, List.head?_cons, Option.some.injEq] at hk
        subst hk
        rw [← hkeys, hyes (by omega) ks hkeys]
        exact hloop _ _
  have hiff : (grubfm_textcat T filename keys fuel).screen ≠ [] ↔
      (file.size ≤ SIZE_1MB ∨ keys.head? = some 121) := by
    constructor
    · intro hne
      by_contra hcon
      simp only [not_or] at hcon
      obtain ⟨hs, hk⟩ := hcon
      cases hkeys : keys with
      | nil => exact hne (by rw [hnone (by omega) hkeys])
      | cons key ks =>
        have hkey : key ≠ 121 := by
          intro h121
          exact hk (by simp [hkeys, h121])
        exact hne (by rw [hno (by omega) key ks hkeys hkey])
    · intro h
      obtain ⟨more, hm⟩ := hdraw h
      rw [hm]
      exact List.cons_ne_nil _ _
  refine ⟨hiff, ?_, hsmall, hyes, hno, hnone⟩
  intro hne
  obtain ⟨more, hm⟩ := hdraw (hiff.mp hne)
  rw [hm]
  rfl

/-- Instance of C9: the 2 MiB file with first key 110 draws nothing, with first key
121 it draws; the 80-byte file draws without a key being read for the prompt. -/
theorem grubfm_textcat_large_file_gate_witness :
    ¬ (demo_text.screen_info.1 < 1024 ∨ demo_text.screen_info.2 < 768) ∧
    demo_text.grub_file_open "/big" = some ⟨"/big", 2097152, 0⟩ ∧ 0 < 1 ∧
    (((grubfm_textcat demo_text "/big" [110, 121] 1).screen ≠ [] ↔
      ((⟨"/big", 2097152, 0⟩ : grub_file).size ≤ SIZE_1MB ∨
        [(110 : Int), 121].head? = some 121)) ∧
    ((grubfm_textcat demo_text "/big" [110, 121] 1).screen ≠ [] →
      (grubfm_textcat demo_text "/big" [110, 121] 1).screen.head? = some Draw.clear) ∧
    ((⟨"/big", 2097152, 0⟩ : grub_file).size ≤ SIZE_1MB →
      grubfm_textcat demo_text "/big" [110, 121] 1 =
        textcat_loop demo_text "/big" demo_text.screen_info.2 [] 1
          ⟨⟨"/big", 2097152, 0⟩, 0, [110, 121], []⟩) ∧
    (SIZE_1MB < (⟨"/big", 2097152, 0⟩ : grub_file).size → ∀ ks, [(110 : Int), 121] = 121 :: ks →
      grubfm_textcat demo_text "/big" [110, 121] 1 =
        textcat_loop demo_text "/big" demo_text.screen_info.2
          [(demo_text.gettext prompt_format, (⟨"/big", 2097152, 0⟩ : grub_file).name)] 1
          ⟨⟨"/big", 2097152, 0⟩, 0, ks, []⟩) ∧
    (SIZE_1MB < (⟨"/big", 2097152, 0⟩ : grub_file).size → ∀ key ks,
      [(110 : Int), 121] = key :: ks → key ≠ 121 →
      grubfm_textcat demo_text "/big" [110, 121] 1 =
        ⟨Status.aborted, [],
          [(demo_text.gettext prompt_format, (⟨"/big", 2097152, 0⟩ : grub_file).name)], ks, 0⟩) ∧
    (SIZE_1MB < (⟨"/big", 2097152, 0⟩ : grub_file).size → [(110 : Int), 121] = [] →
      grubfm_textcat demo_text "/big" [110, 121] 1 =
        ⟨Status.waiting, [],
          [(demo_text.gettext prompt_format, (⟨"/big", 2097152, 0⟩ : grub_file).name)],
          [], 0⟩)) ∧
    (grubfm_textcat demo_text "/big" [110, 121] 1).screen = [] ∧
    (grubfm_textcat demo_text "/big" [121, 27] 1).screen.head? = some Draw.clear ∧
    (grubfm_textcat demo_text "/notes" [27] 1).screen.head? = some Draw.clear ∧
    (grubfm_textcat demo_text "/notes" [27] 1).keys = [] :=
  ⟨by decide, by decide, by decide,
    grubfm_textcat_large_file_gate demo_text "/big" ⟨"/big", 2097152, 0⟩ [110, 121] 1
      (by decide) (by decide) (by decide),
    by decide, by decide, by decide, by decide⟩

/-! ## The `enable` test on arbitrary values -/

theorem enable_skips_head (S : Sys) (e : String) :
    enable_skips S (some e) = true ↔
      (c_str_head e ≠ 'a' ∧ c_str_head e ≠ platform S.machine) := by
  simp [enable_skips]

/-- C11, as stated, fails: on a BIOS build section "0" of `odd_enable_config` has a
`menu` field and `enable=abc`, which is neither "all" nor "bios", and yet its entry is
emitted: the pass for the section is not one that leaves the menu as it is. -/
theorem enable_value_counterexample :
    reaches odd_enable_config 0 ∧
    ini_get odd_enable_config (toString 0) "menu" ≠ none ∧
    ini_get odd_enable_config (toString 0) "enable" = some "abc" ∧
    "abc" ≠ "all" ∧ some "abc" ≠ platform_value demo_sys.machine ∧
    (grubfm_add_ini_menu demo_sys odd_enable_config demo_world).menu =
      [⟨"MENU", "file", none, some "configfile (hd0)/boot/grub/rules/any\n", 0⟩] ∧
    ¬ section_skipped demo_sys odd_enable_config 0 demo_world := by
  refine ⟨by decide, by decide, by decide, by decide, by decide, by decide, ?_⟩
  rintro ⟨w1, earlier, later, hb, hm, -⟩
  have hbody : ini_menu_body demo_sys odd_enable_config 0
      (state_at demo_sys odd_enable_config 0 demo_world) =
      some ⟨[], [⟨"MENU", "file", none, some "configfile (hd0)/boot/grub/rules/any\n", 0⟩],
        [], []⟩ := by decide
  rw [hbody] at hb
  have hw1 := Option.some.inj hb
  subst hw1
  have hstate : (state_at demo_sys odd_enable_config 0 demo_world).menu = [] := by decide
  rw [hstate] at hm
  exact absurd hm (by decide)

/-- C11, amended. For a section the loop reaches, with a `menu` field and `enable`
present: if the first character of `enable` is neither `a` nor the platform tag, the
section is passed over and no entry is emitted for it; this covers the values "efi" and
"bios" that differ from the value of the current platform. A value whose first
character is `a` or the platform tag passes the `enable` test. -/
theorem grubfm_enable_first_char (S : Sys) (ini : ini_t) (i : Nat) (w : World) (e : String)
    (hreach : reaches ini i)
    (hmenu : ini_get ini (toString i) "menu" ≠ none)
    (hen : ini_get ini (toString i) "enable" = some e) :
    (c_str_head e ≠ 'a' → c_str_head e ≠ platform S.machine → section_skipped S ini i w) ∧
    ((e = "efi" ∨ e = "bios") → some e ≠ platform_value S.machine →
      section_skipped S ini i w) ∧
    (c_str_head e = 'a' ∨ c_str_head e = platform S.machine →
      enable_skips S (ini_get ini (toString i) "enable") = false) := by
  have skip : c_str_head e ≠ 'a' → c_str_head e ≠ platform S.machine →
      section_skipped S ini i w := by
    intro h1 h2
    have hsk : enable_skips S (ini_get ini (toString i) "enable") = true := by
      rw [hen]
      exact (enable_skips_head S e).mpr ⟨h1, h2⟩
    exact section_skipped_intro S ini i w _ hreach
      (ini_menu_body_enable_skip S ini i _ hmenu hsk) rfl
  refine ⟨skip, ?_, ?_⟩
  · intro hval hne
    have hefi : c_str_head "efi" = 'e' := by decide
    have hbios : c_str_head "bios" = 'b' := by decide
    rcases hval with rfl | rfl
    · apply skip
      · rw [hefi]; decide
      · rw [hefi]
        cases hm : S.machine with
        | efi => rw [hm] at hne; exact absurd rfl hne
        | pcbios => decide
        | other => decide
    · apply skip
      · rw [hbios]; decide
      · rw [hbios]
        cases hm : S.machine with
        | efi => decide
        | pcbios => rw [hm] at hne; exact absurd rfl hne
        | other => decide
  · intro h
    rw [hen]
    cases hs : enable_skips S (some e) with
    | false => rfl
    | true =>
      obtain ⟨h1, h2⟩ := (enable_skips_head S e).mp hs
      rcases h with h | h
      · exact absurd h h1
      · exact absurd h h2

/-- Instance of the amended C11: on a BIOS build section "1" of `odd_enable_config`,
with `enable=extra`, is passed over; on an EFI build the same section is emitted, and
section "2", with `enable=zzz`, is passed over on both. -/
theorem grubfm_enable_first_char_witness :
    reaches odd_enable_config 1 ∧
    ini_get odd_enable_config (toString 1) "menu" ≠ none ∧
    ini_get odd_enable_config (toString 1) "enable" = some "extra" ∧
    ((c_str_head "extra" ≠ 'a' → c_str_head "extra" ≠ platform demo_sys.machine →
      section_skipped demo_sys odd_enable_config 1 demo_world) ∧
    (("extra" = "efi" ∨ "extra" = "bios") → some "extra" ≠ platform_value demo_sys.machine →
      section_skipped demo_sys odd_enable_config 1 demo_world) ∧
    (c_str_head "extra" = 'a' ∨ c_str_head "extra" = platform demo_sys.machine →
      enable_skips demo_sys (ini_get odd_enable_config (toString 1) "enable") = false)) ∧
    c_str_head "extra" ≠ 'a' ∧ c_str_head "extra" ≠ platform demo_sys.machine ∧
    (grubfm_add_ini_menu demo_sys odd_enable_config demo_world).menu.map MenuEntry.src =
      [some "configfile (hd0)/boot/grub/rules/any\n"] ∧
    (grubfm_add_ini_menu demo_sys_efi odd_enable_config demo_world).menu.map MenuEntry.src =
      [some "configfile (hd0)/boot/grub/rules/any\n",
       some "configfile (hd0)/boot/grub/rules/other\n"] :=
  ⟨by decide, by decide, by decide,
    grubfm_enable_first_char demo_sys odd_enable_config 1 demo_world "extra"
      (by decide) (by decide) (by decide),
    by decide, by decide, by decide, by decide⟩

end Grubfm
